/-
Verification of the reminder subsystem (store and time-expression parser).

Shallow embedding conventions:
* A Python `str` is modelled as `Str := List Char`.  String-literal values are
  written `"...".data`.  Python `str.strip()` is modelled by `pyStrip`, which
  removes the ASCII whitespace characters from both ends (the inputs relevant
  here contain only ASCII whitespace).
* A reminder record (a Python dict) is modelled by the structure `Reminder`.
  Python's coercions `str(d.get(k) or "")` / `int(d.get(k) or 0)` on an
  optional field are modelled by `Option.getD` with default `[]` / `0`;
  fields that the code always writes are modelled as plain fields.
  `d.pop(k, None)` is modelled by setting the optional field to `none`.
* `uuid.uuid4()` and `time.time()` are nondeterministic inputs of the store;
  they are passed explicitly as the `freshId` / `nowMs` arguments.
* Persistence (`_refresh` / `_flush`) rewrites the whole collection; the store
  state is the in-memory list.  For `markSent`/`markFailed` the returned `Bool`
  records whether `_flush` was called.
* Python's `list.sort` is stable; `List.insertionSort` is also stable, so both
  produce the same output for the same key order.
* Wall-clock arithmetic (`datetime.fromtimestamp`, naive local time) is
  modelled with a fixed-offset local timezone `tz` (milliseconds east of UTC);
  the DST discontinuities of a zone-based local time are outside the model.
-/
import Mathlib

set_option maxHeartbeats 1000000
set_option maxRecDepth 4000

abbrev Str : Type := List Char

/-- ASCII whitespace, as stripped by Python `str.strip()` / matched by `\s`
(the Unicode extras of Python's definition never occur in the inputs here). -/
def isSpaceChar (c : Char) : Bool :=
  c = ' ' || c = '\t' || c = '\n' || c = '\r' || c = '\x0b' || c = '\x0c'

/-- Python `str.strip()`: drop whitespace from both ends. -/
def pyStrip (s : Str) : Str :=
  ((s.dropWhile isSpaceChar).reverse.dropWhile isSpaceChar).reverse

/-- The `target` dict computed at creation (chat type plus user/group id). -/
structure Target where
  chatType : Str
  targetId : Str
deriving DecidableEq, Repr

/-- One persisted reminder record (`store.py`, record dict). -/
structure Reminder where
  id : Str
  createdAtMs : Int
  status : Str
  attempts : Int
  dueAtMs : Int
  text : Str
  creatorUserId : Str
  creatorChatType : Str
  creatorGroupId : Option Str
  sourceMessageId : Option Str
  target : Option Target
  mentionUserId : Option Str
  lastError : Option Str
  nextAttemptAtMs : Option Int
  claimedAtMs : Option Int
  sentAtMs : Option Int
  canceledAtMs : Option Int
deriving DecidableEq, Repr

/-- Sort key of `list_pending_by_creator` and `claim_due`:
ascending `dueAtMs`. -/
def dueLeR (a b : Reminder) : Prop := a.dueAtMs ≤ b.dueAtMs

instance : DecidableRel dueLeR := fun a b => Int.decLe a.dueAtMs b.dueAtMs

instance : IsTotal Reminder dueLeR := ⟨fun a b => Int.le_total a.dueAtMs b.dueAtMs⟩

instance : IsTrans Reminder dueLeR := ⟨fun _ _ _ h1 h2 => le_trans h1 h2⟩

/-- The same key on index-tagged records (used inside `claim_due`, where the
claimed records are identified by their position in the collection). -/
def dueLeP (a b : Nat × Reminder) : Prop := a.2.dueAtMs ≤ b.2.dueAtMs

instance : DecidableRel dueLeP := fun a b => Int.decLe a.2.dueAtMs b.2.dueAtMs

instance : IsTotal (Nat × Reminder) dueLeP := ⟨fun a b => Int.le_total a.2.dueAtMs b.2.dueAtMs⟩

instance : IsTrans (Nat × Reminder) dueLeP := ⟨fun _ _ _ h1 h2 => le_trans h1 h2⟩

/-- `store.py` line 86: `r.get("status") not in ("pending", "sending")`. -/
def pendingOrSendingB (r : Reminder) : Bool :=
  r.status == "pending".data || r.status == "sending".data

/-- The filter of `list_pending_by_creator` (`store.py` lines 81-94). -/
def listedB (userId chatType : Str) (groupId : Option Str) (r : Reminder) : Bool :=
  pendingOrSendingB r
  && r.creatorUserId == userId
  && (if chatType = "private".data then r.creatorChatType == "private".data
      else r.creatorGroupId.getD [] == groupId.getD [])

/-- `ReminderStore.list_pending_by_creator` (`store.py` lines 78-96). -/
def listPendingByCreator (rs : List Reminder) (userId chatType : Str)
    (groupId : Option Str) : List Reminder :=
  (rs.filter (listedB userId chatType groupId)).insertionSort dueLeR

/-- `stale_ms = 2 * 60_000` (`store.py` line 100). -/
def staleWindowMs : Int := 120000

/-- Phase 1 of `claim_due` applied to one record (`store.py` lines 102-111):
a `sending` record whose truthy `claimedAtMs` is more than the staleness
window before `now` is reverted to `pending` and its `claimedAtMs` popped. -/
def revertStale (nowMs : Int) (r : Reminder) : Reminder :=
  if r.status = "sending".data ∧ r.claimedAtMs.getD 0 ≠ 0
      ∧ staleWindowMs < nowMs - r.claimedAtMs.getD 0 then
    { r with status := "pending".data, claimedAtMs := none }
  else r

/-- Phase 2 candidate test of `claim_due` (`store.py` lines 113-125):
`pending`, `dueAtMs ≤ now`, and `nextAttemptAtMs`, when set, `≤ now`. -/
def isDueRec (nowMs : Int) (r : Reminder) : Bool :=
  r.status == "pending".data
  && decide (r.dueAtMs ≤ nowMs)
  && (match r.nextAttemptAtMs with
      | none => true
      | some n => decide (n ≤ nowMs))

/-- The claim update of `claim_due` (`store.py` lines 129-131). -/
def claimMark (nowMs : Int) (r : Reminder) : Reminder :=
  { r with status := "sending".data, claimedAtMs := some nowMs }

/-- The due candidates after phase 1, tagged with their list position
(the Python loop works on the record objects in place; positions model
object identity). -/
def dueCandidates (rs : List Reminder) (nowMs : Int) : List (Nat × Reminder) :=
  ((rs.map (revertStale nowMs)).enum).filter (fun p => isDueRec nowMs p.2)

/-- `due.sort(key=... dueAtMs)` (`store.py` line 127); Python's sort is
stable and so is `insertionSort`, hence the outputs agree. -/
def sortedDueCandidates (rs : List Reminder) (nowMs : Int) : List (Nat × Reminder) :=
  (dueCandidates rs nowMs).insertionSort dueLeP

/-- `due = due[: max(0, int(limit))]` (`store.py` line 128). -/
def chosenDueCandidates (rs : List Reminder) (nowMs limit : Int) : List (Nat × Reminder) :=
  (sortedDueCandidates rs nowMs).take (max 0 limit).toNat

/-- `ReminderStore.claim_due` (`store.py` lines 98-135): returns the new
collection and the list of claimed copies. -/
def claimDue (rs : List Reminder) (nowMs limit : Int) : List Reminder × List Reminder :=
  let chosen := chosenDueCandidates rs nowMs limit
  let idxs := chosen.map (fun p => p.1)
  ((rs.map (revertStale nowMs)).enum.map
      (fun p => if idxs.contains p.1 then claimMark nowMs p.2 else p.2),
   chosen.map (fun p => claimMark nowMs p.2))

/-- The `opts` dict passed to `ReminderStore.create` (the keys the caller in
`tool.py` supplies). -/
structure CreateOpts where
  sourceMessageId : Option Str
  dueAtMs : Int
  creatorUserId : Str
  creatorChatType : Str
  creatorGroupId : Option Str
  target : Option Target
  mentionUserId : Option Str
  text : Str
deriving DecidableEq, Repr

/-- `store.py` line 139 and the guard on line 140: the dedup key is the
stripped `sourceMessageId` provided it is truthy both before and after
stripping; otherwise dedup is skipped. -/
def dedupKey (o : Option Str) : Option Str :=
  match o with
  | none => none
  | some s =>
    if s = [] then none
    else
      let k := pyStrip s
      if k = [] then none else some k

/-- The dedup-tuple test of `create` (`store.py` lines 141-156), one record
against the incoming `opts` with normalized key `key`. -/
def dedupMatchB (opts : CreateOpts) (key : Str) (r : Reminder) : Bool :=
  r.sourceMessageId.getD [] == key
  && r.creatorUserId == opts.creatorUserId
  && r.creatorChatType == opts.creatorChatType
  && r.dueAtMs == opts.dueAtMs
  && pyStrip r.text == pyStrip opts.text
  && (if opts.creatorChatType = "group".data then
        r.creatorGroupId.getD [] == opts.creatorGroupId.getD []
      else true)

/-- The fresh record built by `create` (`store.py` lines 158-166): fresh id,
`createdAtMs = now`, `status = pending`, `attempts = 0`, the opts fields, and
the stripped text. -/
def newReminder (opts : CreateOpts) (freshId : Str) (nowMs : Int) : Reminder :=
  { id := freshId
    createdAtMs := nowMs
    status := "pending".data
    attempts := 0
    dueAtMs := opts.dueAtMs
    text := pyStrip opts.text
    creatorUserId := opts.creatorUserId
    creatorChatType := opts.creatorChatType
    creatorGroupId := opts.creatorGroupId
    sourceMessageId := opts.sourceMessageId
    target := opts.target
    mentionUserId := opts.mentionUserId
    lastError := none
    nextAttemptAtMs := none
    claimedAtMs := none
    sentAtMs := none
    canceledAtMs := none }

/-- `ReminderStore.create` (`store.py` lines 137-169): returns the record
handed back to the caller and the new collection. -/
def create (rs : List Reminder) (opts : CreateOpts) (freshId : Str) (nowMs : Int) :
    Reminder × List Reminder :=
  match dedupKey opts.sourceMessageId with
  | some key =>
    match rs.find? (dedupMatchB opts key) with
    | some r => (r, rs)
    | none => (newReminder opts freshId nowMs, rs ++ [newReminder opts freshId nowMs])
  | none => (newReminder opts freshId nowMs, rs ++ [newReminder opts freshId nowMs])

/-- Exact match of `cancel` (`store.py` lines 177-182): full id equality plus
ownership. -/
def cancelExactB (userId key : Str) (r : Reminder) : Bool :=
  r.id == key && r.creatorUserId == userId

/-- Prefix fallback of `cancel` (`store.py` lines 184-192): ownership plus
`id.startswith(key)`. -/
def cancelPrefixB (userId key : Str) (r : Reminder) : Bool :=
  r.creatorUserId == userId && key.isPrefixOf r.id

/-- Which record `cancel` acts on: the first exact id+owner match, otherwise
(for a key shorter than a full 36-character id) the first owned prefix match. -/
def cancelTargetIdx (rs : List Reminder) (userId key : Str) : Option Nat :=
  match rs.findIdx? (cancelExactB userId key) with
  | some i => some i
  | none =>
    if key.length < 36 then rs.findIdx? (cancelPrefixB userId key) else none

/-- The cancellation update (`store.py` lines 196-199). -/
def cancelRecord (nowMs : Int) (r : Reminder) : Reminder :=
  { r with
    status := "canceled".data
    canceledAtMs := some nowMs
    nextAttemptAtMs := none
    claimedAtMs := none }

/-- `store.py` lines 193-204, acting on the record found at index `i`:
already-terminal records are returned unchanged, otherwise the record is
canceled in place. -/
def cancelAt (rs : List Reminder) (i : Nat) (nowMs : Int) :
    Option Reminder × List Reminder :=
  match rs[i]? with
  | none => (none, rs)
  | some r =>
    if r.status = "pending".data ∨ r.status = "sending".data then
      (some (cancelRecord nowMs r), rs.set i (cancelRecord nowMs r))
    else (some r, rs)

/-- `ReminderStore.cancel` (`store.py` lines 171-204). -/
def cancel (rs : List Reminder) (userId rawKey : Str) (nowMs : Int) :
    Option Reminder × List Reminder :=
  let key := pyStrip rawKey
  if key = [] then (none, rs)
  else
    match cancelTargetIdx rs userId key with
    | none => (none, rs)
    | some i => cancelAt rs i nowMs

/-- The update of `mark_sent` (`store.py` lines 211-215). -/
def sentRecord (nowMs : Int) (r : Reminder) : Reminder :=
  { r with
    status := "sent".data
    sentAtMs := some nowMs
    lastError := none
    nextAttemptAtMs := none
    claimedAtMs := none }

/-- `ReminderStore.mark_sent` (`store.py` lines 206-220): updates the first
record with the given id; the `Bool` is whether `_flush` ran. -/
def markSent (rs : List Reminder) (rid : Str) (nowMs : Int) : List Reminder × Bool :=
  match rs.findIdx? (fun r => r.id == rid) with
  | none => (rs, false)
  | some i =>
    match rs[i]? with
    | none => (rs, false)
    | some r => (rs.set i (sentRecord nowMs r), true)

/-- The update of `mark_failed` (`store.py` lines 227-231). -/
def failedRecord (nowMs : Int) (error : Str) (r : Reminder) : Reminder :=
  { r with
    status := "pending".data
    attempts := r.attempts + 1
    lastError := some (if error = [] then "send_failed".data else error)
    nextAttemptAtMs := some (nowMs + 10000)
    claimedAtMs := none }

/-- `ReminderStore.mark_failed` (`store.py` lines 222-236). -/
def markFailed (rs : List Reminder) (rid : Str) (error : Str) (nowMs : Int) :
    List Reminder × Bool :=
  match rs.findIdx? (fun r => r.id == rid) with
  | none => (rs, false)
  | some i =>
    match rs[i]? with
    | none => (rs, false)
    | some r => (rs.set i (failedRecord nowMs error r), true)

/-! ## Parser: character classes and numerals (`parser.py`) -/

/-- `\d` (the inputs here only ever contain ASCII digits). -/
def isDigitChar (c : Char) : Bool := '0' ≤ c && c ≤ '9'

def digitVal (c : Char) : Int := Int.ofNat (c.toNat - 48)

/-- `int(s)` on a nonempty ASCII-digit string. -/
def decDigitsToInt (s : Str) : Int := s.foldl (fun acc c => acc * 10 + digitVal c) 0

/-- `_clamp_int` (`parser.py` lines 5-6). -/
def clampInt (n minV maxV : Int) : Int := max minV (min maxV n)

/-- The character class `[零〇一二两三四五六七八九十]`. -/
def isCnNumChar (c : Char) : Bool :=
  c = '零' || c = '〇' || c = '一' || c = '二' || c = '两' || c = '三' || c = '四'
    || c = '五' || c = '六' || c = '七' || c = '八' || c = '九' || c = '十'

/-- The `mapping` dict of `_parse_cn_number` (`parser.py` line 15). -/
def cnDigitVal (c : Char) : Option Int :=
  if c = '零' then some 0
  else if c = '〇' then some 0
  else if c = '一' then some 1
  else if c = '二' then some 2
  else if c = '两' then some 2
  else if c = '三' then some 3
  else if c = '四' then some 4
  else if c = '五' then some 5
  else if c = '六' then some 6
  else if c = '七' then some 7
  else if c = '八' then some 8
  else if c = '九' then some 9
  else none

/-- The accumulator loop of `_parse_cn_number` (`parser.py` lines 16-26). -/
def cnNumLoop : Str → Int → Int → Option Int
  | [], total, cur => some (total + cur)
  | c :: cs, total, cur =>
    if c = '十' then cnNumLoop cs (total + (if cur = 0 then 1 else cur) * 10) 0
    else
      match cnDigitVal c with
      | some v => cnNumLoop cs total (cur + v)
      | none => none

/-- `_parse_cn_number` (`parser.py` lines 9-27). -/
def parseCnNumber (s0 : Str) : Option Int :=
  let s := pyStrip s0
  if s = [] then none
  else if s.all isDigitChar then some (decDigitsToInt s)
  else
    match cnNumLoop s 0 0 with
    | some total => if 0 ≤ total then some total else none
    | none => none

/-! ## Parser: mention stripping (`parser.py` lines 30-35) -/

/-- `re.sub(r"@\d+", " ", t)`: scanning left to right, each maximal
`@`+digits run becomes one space.  Fuel `s.length` always suffices: every
step consumes at least one character. -/
def subAtMentionsAux : Nat → Str → Str
  | 0, s => s
  | fuel + 1, s =>
    match s with
    | [] => []
    | c :: cs =>
      if c = '@' ∧ cs.takeWhile isDigitChar ≠ [] then
        ' ' :: subAtMentionsAux fuel (cs.dropWhile isDigitChar)
      else c :: subAtMentionsAux fuel cs

def subAtMentions (s : Str) : Str := subAtMentionsAux s.length s

/-- `re.sub(r"\s+", " ", t)`: each maximal whitespace run becomes one space. -/
def collapseWsAux : Nat → Str → Str
  | 0, s => s
  | fuel + 1, s =>
    match s with
    | [] => []
    | c :: cs =>
      if isSpaceChar c then ' ' :: collapseWsAux fuel (cs.dropWhile isSpaceChar)
      else c :: collapseWsAux fuel cs

def collapseWs (s : Str) : Str := collapseWsAux s.length s

/-- `_strip_mentions` (`parser.py` lines 30-35). -/
def stripMentions (t : Str) : Str := pyStrip (collapseWs (subAtMentions t))

/-! ## Parser: duration-phrase rewriting (`parser.py` lines 38-57)

Each `re.sub` call is modelled by a left-to-right scanner: at every position
it tries the pattern; on a match it emits the replacement and resumes after
the matched slice, otherwise it copies one character.  All the patterns here
consume at least one character, so fuel `s.length` always suffices. -/

def countWs (s : Str) : Nat := (s.takeWhile isSpaceChar).length

/-- Length matched by `(?:小时|钟头)` (ordered alternation). -/
def matchHourUnit (s : Str) : Option Nat :=
  if ("小时".data).isPrefixOf s then some 2
  else if ("钟头".data).isPrefixOf s then some 2
  else none

/-- After a leading `半`: `(?:\s*个\s*|\s*)(?:小时|钟头)`, first branch first.
The `\s*` runs are taken maximally, which is exact because the characters
that may follow them (`个`, `小`, `钟`) are not whitespace. -/
def matchHalfLen (s : Str) : Option Nat :=
  (let w1 := countWs s
   match s.drop w1 with
   | g :: gs =>
     if g = '个' then
       let w2 := countWs gs
       (matchHourUnit (gs.drop w2)).map (fun u => w1 + 1 + w2 + u)
     else none
   | [] => none)
  <|> (let w := countWs s
       (matchHourUnit (s.drop w)).map (fun u => w + u))

/-- A fixed character sequence with `\s*` between consecutive characters
(e.g. `一\s*刻\s*钟`); returns the matched length. -/
def matchCharsWs : List Char → Str → Option Nat
  | [], _ => some 0
  | c :: rest, s =>
    match s with
    | [] => none
    | x :: xs =>
      if x = c then
        match rest with
        | [] => some 1
        | _ :: _ =>
          let w := countWs xs
          (matchCharsWs rest (xs.drop w)).map (fun n => 1 + w + n)
      else none

/-- Generic scanning substitution: `m` returns (replacement, matched length)
when the pattern matches at the current position. -/
def scanSubAux (m : Str → Option (Str × Nat)) : Nat → Str → Str
  | 0, s => s
  | fuel + 1, s =>
    match s with
    | [] => []
    | c :: cs =>
      match m (c :: cs) with
      | some (rep, n) => rep ++ scanSubAux m fuel ((c :: cs).drop n)
      | none => c :: scanSubAux m fuel cs

def scanSub (m : Str → Option (Str × Nat)) (s : Str) : Str := scanSubAux m s.length s

/-- `(?:半\s*个\s*|半\s*)(?:小时|钟头)` → `30分钟`. -/
def mHalfHour (s : Str) : Option (Str × Nat) :=
  match s with
  | c :: cs =>
    if c = '半' then (matchHalfLen cs).map (fun n => ("30分钟".data, n + 1)) else none
  | [] => none

/-- `一\s*刻\s*钟` / `两\s*刻\s*钟` / `三\s*刻\s*钟` → fixed replacement. -/
def mQuarterPat (c0 : Char) (rep : Str) (s : Str) : Option (Str × Nat) :=
  (matchCharsWs (c0 :: '刻' :: '钟' :: []) s).map (fun n => (rep, n))

/-- `mins` rendered in decimal, as Python's f-string does (the value is
always nonnegative here). -/
def intToDecStr (v : Int) : Str := (Nat.repr v.toNat).data

/-- The numeral group `(?P<n>\d+|[零〇一二两三四五六七八九十]+)`: ordered
alternation, each branch greedy.  Maximal munch is exact because the
characters that may follow the group in the two rewrite patterns
(whitespace, `个`, `半`, `小`, `钟`) belong to neither class. -/
def takeNumeral (s : Str) : Str :=
  let d := s.takeWhile isDigitChar
  if d ≠ [] then d else s.takeWhile isCnNumChar

/-- `\s*半\s*(?:小时|钟头)`, returning the matched length. -/
def matchHalfRest (s : Str) : Option Nat :=
  let w := countWs s
  match s.drop w with
  | c :: cs =>
    if c = '半' then
      let w2 := countWs cs
      (matchHourUnit (cs.drop w2)).map (fun u => w + 1 + w2 + u)
    else none
  | [] => none

/-- `(?P<n>...)\s*(?:个)?\s*半\s*(?:小时|钟头)` with `repl_one_and_half`
(`parser.py` lines 47-56): on a match, replace with `(n*60+30)分钟`, or with
the matched slice itself when the numeral does not parse. -/
def mNHalfHour (s : Str) : Option (Str × Nat) :=
  let num := takeNumeral s
  if num = [] then none
  else
    let s1 := s.drop num.length
    let w1 := countWs s1
    let afterNum : Option Nat :=
      (match s1.drop w1 with
       | g :: gs => if g = '个' then (matchHalfRest gs).map (fun n => w1 + 1 + n) else none
       | [] => none)
      <|> (matchHalfRest s1)
    match afterNum with
    | some n2 =>
      let total := num.length + n2
      match parseCnNumber num with
      | some v => some (intToDecStr (v * 60 + 30) ++ ("分钟".data), total)
      | none => some (s.take total, total)
    | none => none

/-- `(?P<n>...)\s*(?:小时|钟头)\s*半` with the same replacement function. -/
def mNHourHalf (s : Str) : Option (Str × Nat) :=
  let num := takeNumeral s
  if num = [] then none
  else
    let s1 := s.drop num.length
    let w1 := countWs s1
    match matchHourUnit (s1.drop w1) with
    | some u =>
      let s2 := s1.drop (w1 + u)
      let w2 := countWs s2
      match s2.drop w2 with
      | c :: _ =>
        if c = '半' then
          let total := num.length + w1 + u + w2 + 1
          match parseCnNumber num with
          | some v => some (intToDecStr (v * 60 + 30) ++ ("分钟".data), total)
          | none => some (s.take total, total)
        else none
      | [] => none
    | none => none

/-- `_rewrite_duration_phrases` (`parser.py` lines 38-57): the six `re.sub`
passes, in source order. -/
def rewriteDurationPhrases (s : Str) : Str :=
  if s = [] then s
  else
    let s1 := scanSub mHalfHour s
    let s2 := scanSub (mQuarterPat '一' ("15分钟".data)) s1
    let s3 := scanSub (mQuarterPat '两' ("30分钟".data)) s2
    let s4 := scanSub (mQuarterPat '三' ("45分钟".data)) s3
    let s5 := scanSub mNHalfHour s4
    scanSub mNHourHalf s5

/-! ## Parser: regex machinery

Each `re.match` of `parser.py` is embedded as a backtracking recursive-descent
matcher in continuation-passing style, preserving the regex's ordered
alternation, greedy (`*`/`+`/`{1,2}`, longest first) and lazy (`+?`, shortest
first) repetition, and optionality (present first).  `$` under `re.match`
accepts the end of the string or a position just before a final newline. -/

/-- `$`: end of input, or just before a final newline. -/
def atEndB (s : Str) : Bool := s = [] || s = ('\n' :: [])

/-- `(.+)$` where `.` does not match a newline: the whole remainder modulo an
optional final newline, nonempty and newline-free. -/
def matchMsgEnd (s : Str) : Option Str :=
  let body := if s.getLast? = some '\n' then s.dropLast else s
  if body = [] then none
  else if body.contains '\n' then none
  else some body

/-- Greedy `\s*` with backtracking: try consuming the longer run first. -/
def wsStarK {α : Type} (k : Str → Option α) : Str → Option α
  | [] => k []
  | c :: cs => if isSpaceChar c then (wsStarK k cs) <|> k (c :: cs) else k (c :: cs)

/-- `\s+` = one whitespace character then `\s*`. -/
def wsPlusK {α : Type} (k : Str → Option α) (s : Str) : Option α :=
  match s with
  | c :: cs => if isSpaceChar c then wsStarK k cs else none
  | [] => none

/-- Ordered alternation over literal words, passing the matched word to the
continuation; a failing continuation backtracks to the next alternative. -/
def tryCapAlts {α : Type} (alts : List Str) (k : Str → Str → Option α) (s : Str) : Option α :=
  match alts with
  | [] => none
  | a :: rest => (if a.isPrefixOf s then k a (s.drop a.length) else none) <|> tryCapAlts rest k s

def tryAlts {α : Type} (alts : List Str) (k : Str → Option α) (s : Str) : Option α :=
  tryCapAlts alts (fun _ r => k r) s

/-- `(?:w1|w2|...)?`: present first, then absent. -/
def optAlts {α : Type} (alts : List Str) (k : Str → Option α) (s : Str) : Option α :=
  tryAlts alts k s <|> k s

/-- `(w1|w2|...)?` with capture: present first, then absent. -/
def optCapAlts {α : Type} (alts : List Str) (k : Option Str → Str → Option α) (s : Str) : Option α :=
  tryCapAlts alts (fun a r => k (some a) r) s <|> k none s

/-- Case folding for `re.IGNORECASE` (only ASCII letters occur in the
patterns; CJK characters are unaffected). -/
def ciCharEq (a b : Char) : Bool := a.toLower = b.toLower

def ciIsPrefixOf : Str → Str → Bool
  | [], _ => true
  | _ :: _, [] => false
  | a :: arest, b :: brest => ciCharEq a b && ciIsPrefixOf arest brest

/-- Ordered alternation over literal words, case-insensitively. -/
def tryAltsCI {α : Type} (alts : List Str) (k : Str → Option α) (s : Str) : Option α :=
  match alts with
  | [] => none
  | a :: rest => (if ciIsPrefixOf a s then k (s.drop a.length) else none) <|> tryAltsCI rest k s

/-- Greedy `+` over a character class, longest run first, with capture. -/
def plusClassKAux {α : Type} (k : Str → Str → Option α) (s : Str) : Nat → Option α
  | 0 => none
  | n + 1 => (k (s.take (n + 1)) (s.drop (n + 1))) <|> plusClassKAux k s n

def plusClassK {α : Type} (p : Char → Bool) (k : Str → Str → Option α) (s : Str) : Option α :=
  plusClassKAux k s (s.takeWhile p).length

/-- Greedy `{1,2}` over a character class: two characters first, then one. -/
def rep12K {α : Type} (p : Char → Bool) (k : Str → Str → Option α) (s : Str) : Option α :=
  match s with
  | [] => none
  | c1 :: rest1 =>
    if p c1 then
      (match rest1 with
       | c2 :: rest2 => if p c2 then k (c1 :: c2 :: []) rest2 else none
       | [] => none)
      <|> k (c1 :: []) rest1
    else none

/-- Exactly four class characters (`\d{4}`). -/
def rep4K {α : Type} (p : Char → Bool) (k : Str → Str → Option α) (s : Str) : Option α :=
  match s with
  | c1 :: c2 :: c3 :: c4 :: rest =>
    if p c1 && p c2 && p c3 && p c4 then k (c1 :: c2 :: c3 :: c4 :: []) rest else none
  | _ => none

/-- Lazy `([\s\S]+?)`: shortest prefix first, growing on failure. -/
def lazyAnyPlusKAux {α : Type} (k : Str → Str → Option α) (acc : Str) : Str → Nat → Option α
  | _, 0 => none
  | s, fuel + 1 =>
    match s with
    | [] => none
    | c :: cs => (k (acc ++ (c :: [])) cs) <|> lazyAnyPlusKAux k (acc ++ (c :: [])) cs fuel

def lazyAnyPlusK {α : Type} (k : Str → Str → Option α) (s : Str) : Option α :=
  lazyAnyPlusKAux k [] s s.length

/-- The trigger-verb alternation `(?:提醒|叫|通知|发|发送)`, in source order. -/
def trigAlts : List Str := ["提醒".data, "叫".data, "通知".data, "发".data, "发送".data]

/-- The day-hint alternation `(今天|明天|后天|今晚)`. -/
def hintAlts : List Str := ["今天".data, "明天".data, "后天".data, "今晚".data]

/-- `(?:后|以后|之后)`. -/
def houAlts : List Str := ["后".data, "以后".data, "之后".data]

/-- `(?:在\s*)?`. -/
def zaiOptK {α : Type} (k : Str → Option α) (s : Str) : Option α :=
  (if ("在".data).isPrefixOf s then wsStarK k (s.drop 1) else none) <|> k s

/-! ## Parser: the relative-delay stage (`parser.py` lines 132-159) -/

/-- The captured groups of the two delay regexes `r1`/`r2`. -/
structure DelayGroups where
  days : Option Str
  hours : Option Str
  mins : Option Str
  msg : Str
deriving DecidableEq, Repr

/-- `(?:(\d+|[零〇一二两三四五六七八九十]+)\s*(?:U...))` with the numeral
captured; the two numeral branches in regex order, units case-insensitive. -/
def numUnitK {α : Type} (units : List Str) (k : Str → Str → Option α) (s : Str) : Option α :=
  (plusClassK isDigitChar
    (fun cap r1 => wsStarK (fun r2 => tryAltsCI units (fun r3 => k cap r3) r2) r1) s)
  <|> plusClassK isCnNumChar
    (fun cap r1 => wsStarK (fun r2 => tryAltsCI units (fun r3 => k cap r3) r2) r1) s

/-- The same group made optional (`(?:...)?`): present first. -/
def numUnitOptK {α : Type} (units : List Str) (k : Option Str → Str → Option α) (s : Str) :
    Option α :=
  numUnitK units (fun cap r => k (some cap) r) s <|> k none s

/-- `(?:(?:提醒|叫|通知|发|发送)(?:我|你)?\s*)?` then the continuation. -/
def leadTrigOptK {α : Type} (k : Str → Option α) (s : Str) : Option α :=
  tryAlts trigAlts
    (fun r => optAlts ("我".data :: "你".data :: []) (fun r2 => wsStarK k r2) r) s
  <|> k s

/-- The tail `\s*(?:(?:提醒|叫|通知|发|发送)(?:我|你)?\s*)?(.+)$` of `r1`. -/
def tailMsgR1 (s : Str) : Option Str :=
  wsStarK (fun r =>
    (tryAlts trigAlts
      (fun r2 => optAlts ("我".data :: "你".data :: [])
        (fun r3 => wsStarK (fun r4 => matchMsgEnd r4) r3) r2) r)
    <|> matchMsgEnd r) s

def dayUnits : List Str := ["天".data, "d".data]

def hourUnits : List Str := ["小时".data, "h".data]

def minUnits : List Str := ["分钟".data, "分".data, "min".data, "m".data]

/-- The first delay regex `r1` (`parser.py` lines 134-138). -/
def delayR1 (t : Str) : Option DelayGroups :=
  leadTrigOptK (fun s1 =>
    numUnitOptK dayUnits (fun d s2 =>
      wsStarK (fun s3 =>
        numUnitOptK hourUnits (fun h s4 =>
          wsStarK (fun s5 =>
            numUnitOptK minUnits (fun mi s6 =>
              wsStarK (fun s7 =>
                tryAlts houAlts (fun s8 =>
                  (tailMsgR1 s8).map (fun msg => ⟨d, h, mi, msg⟩)) s7) s6) s5) s4) s3) s2) s1) t

/-- The second delay regex `r2` (`parser.py` lines 139-143): same groups, no
leading trigger, mandatory trigger after `后`. -/
def delayR2 (t : Str) : Option DelayGroups :=
  numUnitOptK dayUnits (fun d s2 =>
    wsStarK (fun s3 =>
      numUnitOptK hourUnits (fun h s4 =>
        wsStarK (fun s5 =>
          numUnitOptK minUnits (fun mi s6 =>
            wsStarK (fun s7 =>
              tryAlts houAlts (fun s8 =>
                wsStarK (fun s9 =>
                  tryAlts trigAlts (fun s10 =>
                    optAlts ("我".data :: "你".data :: []) (fun s11 =>
                      wsStarK (fun s12 =>
                        (matchMsgEnd s12).map (fun msg => ⟨d, h, mi, msg⟩))
                        s11) s10) s9) s8) s7) s6) s5) s4) s3) s2) t

/-- `days_raw = str(m.group(i) or "").strip()` followed by
`_clamp_int(_parse_cn_number(raw) or 0, 0, maxV) if raw else 0`. -/
def groupNum (raw : Option Str) (maxV : Int) : Int :=
  let g := pyStrip (raw.getD [])
  if g = [] then 0 else clampInt ((parseCnNumber g).getD 0) 0 maxV

/-- `_parse_delay_reminder` (`parser.py` lines 132-159). -/
def parseDelayReminder (text : Str) (nowMs : Int) : Option (Int × Str) :=
  let t := rewriteDurationPhrases (stripMentions text)
  match (delayR1 t) <|> delayR2 t with
  | none => none
  | some g =>
    let days := groupNum g.days 365
    let hours := groupNum g.hours 168
    let mins := groupNum g.mins 10080
    if days = 0 ∧ hours = 0 ∧ mins = 0 then none
    else
      let delayMs := (days * 24 * 60 + hours * 60 + mins) * 60000
      let msg := stripMentions g.msg
      if msg = [] then none else some (nowMs + delayMs, msg)

/-! ## Parser: clock-time tokens and day resolution (`parser.py` lines 96-129) -/

/-- The groups of `^(\d{1,2})(?:[:：点](\d{1,2}))?$` in `_parse_hm`. -/
def parseHmGroups (s : Str) : Option (Str × Option Str) :=
  rep12K isDigitChar (fun cap1 r1 =>
    (match r1 with
     | c :: cs =>
       (if c = ':' ∨ c = '：' ∨ c = '点' then
          rep12K isDigitChar (fun cap2 r2 =>
            if atEndB r2 then some (cap1, some cap2) else none) cs
        else none)
       <|> (if atEndB r1 then some (cap1, none) else none)
     | [] => some (cap1, none))) s

/-- `_parse_hm` (`parser.py` lines 96-101). -/
def parseHm (text : Str) : Option (Int × Int) :=
  match parseHmGroups (pyStrip text) with
  | none => none
  | some (h, m) =>
    some (clampInt (decDigitsToInt h) 0 23,
      clampInt (match m with | some d => decDigitsToInt d | none => 0) 0 59)

/-- `m1 = ^(\d{1,2})\s*(?:[:：]\s*(\d{1,2}))$` (`parser.py` line 108). -/
def timeTokM1 (t : Str) : Option (Int × Int) :=
  rep12K isDigitChar (fun cap1 r1 =>
    wsStarK (fun r2 =>
      match r2 with
      | c :: cs =>
        if c = ':' ∨ c = '：' then
          wsStarK (fun r3 =>
            rep12K isDigitChar (fun cap2 r4 =>
              if atEndB r4 then
                some (clampInt (decDigitsToInt cap1) 0 23, clampInt (decDigitsToInt cap2) 0 59)
              else none) r3) cs
        else none
      | [] => none) r1) t

/-- `m2 = ^(\d{1,2})\s*点\s*半$` (`parser.py` line 111). -/
def timeTokM2 (t : Str) : Option (Int × Int) :=
  rep12K isDigitChar (fun cap1 r1 =>
    wsStarK (fun r2 =>
      match r2 with
      | c :: cs =>
        if c = '点' then
          wsStarK (fun r3 =>
            match r3 with
            | b :: bs =>
              if b = '半' ∧ atEndB bs then some (clampInt (decDigitsToInt cap1) 0 23, 30)
              else none
            | [] => none) cs
        else none
      | [] => none) r1) t

/-- `m3 = ^(\d{1,2})\s*点\s*(\d{1,2})$` (`parser.py` line 114). -/
def timeTokM3 (t : Str) : Option (Int × Int) :=
  rep12K isDigitChar (fun cap1 r1 =>
    wsStarK (fun r2 =>
      match r2 with
      | c :: cs =>
        if c = '点' then
          wsStarK (fun r3 =>
            rep12K isDigitChar (fun cap2 r4 =>
              if atEndB r4 then
                some (clampInt (decDigitsToInt cap1) 0 23, clampInt (decDigitsToInt cap2) 0 59)
              else none) r3) cs
        else none
      | [] => none) r1) t

/-- `m4 = ^(\d{1,2})\s*点$` (`parser.py` line 117). -/
def timeTokM4 (t : Str) : Option (Int × Int) :=
  rep12K isDigitChar (fun cap1 r1 =>
    wsStarK (fun r2 =>
      match r2 with
      | c :: cs =>
        if c = '点' ∧ atEndB cs then some (clampInt (decDigitsToInt cap1) 0 23, 0) else none
      | [] => none) r1) t

/-- `_parse_time_token` (`parser.py` lines 104-120). -/
def parseTimeToken (text : Str) : Option (Int × Int) :=
  let t := pyStrip text
  if t = [] then none
  else
    match timeTokM1 t with
    | some r => some r
    | none =>
      match timeTokM2 t with
      | some r => some r
      | none =>
        match timeTokM3 t with
        | some r => some r
        | none =>
          match timeTokM4 t with
          | some r => some r
          | none => parseHm t

def dayMs : Int := 86400000

/-- Midnight of the local civil day containing `nowMs`, for a fixed-offset
local timezone `tz` (ms east of UTC).  This models the
`datetime.fromtimestamp(now_ms / 1000).replace(second=0, microsecond=0, ...)`
wall-clock arithmetic of `_compute_next_time`. -/
def localDayStart (tz nowMs : Int) : Int := nowMs - (nowMs + tz) % dayMs

/-- `_compute_next_time` (`parser.py` lines 120-129): place `hour:minute` on
today's local date, shift by the day hint, and, with no hint only, roll a
non-future instant forward by exactly one day. -/
def computeNextTime (dayHint : Option Str) (hour minute nowMs tz : Int) : Int :=
  let base0 := localDayStart tz nowMs + hour * 3600000 + minute * 60000
  let base1 :=
    if dayHint = some ("tomorrow".data) then base0 + dayMs
    else if dayHint = some ("day_after_tomorrow".data) then base0 + 2 * dayMs
    else base0
  if dayHint = none ∧ base1 ≤ nowMs then base1 + dayMs else base1

/-- The `hint_raw` → `day_hint` mapping shared by the absolute and
multi-time stages (`parser.py` lines 189-198 and 213-222): `明天`/`后天` map
to their shifts, `今天` and any other nonempty qualifier to `today`, absence
to `None`.  (The source's `day_hint if day_hint != "today" else "today"` at
the call sites is the identity and is dropped here.) -/
def hintToDayHint (hintRaw : Str) : Option Str :=
  if hintRaw = "明天".data then some ("tomorrow".data)
  else if hintRaw = "后天".data then some ("day_after_tomorrow".data)
  else if hintRaw = "今天".data then some ("today".data)
  else if hintRaw ≠ [] then some ("today".data)
  else none

/-! ## Parser: the absolute stage (`parser.py` lines 162-202) -/

/-- The full date-time regex `m_dt` (`parser.py` line 164): four year digits,
then month and day (each separated by a dash or slash), whitespace, hour,
a mandatory `[:：]`-separated minute, `\s*`, a trigger verb, optional `我`,
`\s*`, and the message. -/
structure DtGroups where
  year : Str
  month : Str
  day : Str
  hour : Str
  minute : Str
  msg : Str
deriving DecidableEq, Repr

def dtRegexMatch (t : Str) : Option DtGroups :=
  rep4K isDigitChar (fun y r1 =>
    match r1 with
    | c1 :: cs1 =>
      if c1 = '-' ∨ c1 = '/' then
        rep12K isDigitChar (fun mo r2 =>
          match r2 with
          | c2 :: cs2 =>
            if c2 = '-' ∨ c2 = '/' then
              rep12K isDigitChar (fun d r3 =>
                wsPlusK (fun r4 =>
                  rep12K isDigitChar (fun h r5 =>
                    match r5 with
                    | c3 :: cs3 =>
                      if c3 = ':' ∨ c3 = '：' then
                        rep12K isDigitChar (fun mi r6 =>
                          wsStarK (fun r7 =>
                            tryAlts trigAlts (fun r8 =>
                              optAlts ("我".data :: []) (fun r9 =>
                                wsStarK (fun r10 =>
                                  (matchMsgEnd r10).map
                                    (fun msg => ⟨y, mo, d, h, mi, msg⟩)) r9) r8) r7) r6) cs3
                      else none
                    | [] => none) r4) r3) cs2
            else none
          | [] => none) cs1
      else none
    | [] => none) t

def isLeapYear (y : Int) : Bool := decide ((y % 4 = 0 ∧ y % 100 ≠ 0) ∨ y % 400 = 0)

def daysInMonth (y m : Int) : Int :=
  if m = 2 then (if isLeapYear y then 29 else 28)
  else if m = 4 ∨ m = 6 ∨ m = 9 ∨ m = 11 then 30
  else 31

/-- The dates `datetime(year, month, day, ...)` accepts (month is already
clamped to `[1, 12]` at the call site). -/
def validDateB (y m d : Int) : Bool :=
  decide (1 ≤ y ∧ y ≤ 9999 ∧ 1 ≤ d ∧ d ≤ daysInMonth y m)

/-- Days between 1970-01-01 and `y-m-d` in the proleptic Gregorian calendar
(all division operands are nonnegative for the valid years `y ≥ 1`). -/
def daysFromCivil (y m d : Int) : Int :=
  let yAdj := if m ≤ 2 then y - 1 else y
  let era := yAdj / 400
  let yoe := yAdj - era * 400
  let mp := (m + 9) % 12
  let doy := (153 * mp + 2) / 5 + d - 1
  let doe := yoe * 365 + yoe / 4 - yoe / 100 + doy
  era * 146097 + doe - 719468

/-- The clock-time regex `m_hm` (`parser.py` line 182):
`^(?:在\s*)?(今天|明天|后天|今晚)?\s*(\d{1,2}(?:[:：点]\d{1,2})?)\s*(?:提醒|叫|通知|发|发送)(?:我)?\s*(.+)$`.
Returns (hint group, time group, message group). -/
def timeTokCapK {α : Type} (k : Str → Str → Option α) (s : Str) : Option α :=
  rep12K isDigitChar (fun cap1 r1 =>
    (match r1 with
     | c :: cs =>
       (if c = ':' ∨ c = '：' ∨ c = '点' then
          rep12K isDigitChar (fun cap2 r2 => k (cap1 ++ c :: cap2) r2) cs
        else none)
       <|> k cap1 r1
     | [] => k cap1 [])) s

def hmRegexMatch (t : Str) : Option (Option Str × Str × Str) :=
  zaiOptK (fun s1 =>
    optCapAlts hintAlts (fun g1 s2 =>
      wsStarK (fun s3 =>
        timeTokCapK (fun cap s4 =>
          wsStarK (fun s5 =>
            tryAlts trigAlts (fun s6 =>
              optAlts ("我".data :: []) (fun s7 =>
                wsStarK (fun s8 =>
                  (matchMsgEnd s8).map (fun msg => (g1, cap, msg))) s7) s6) s5) s4) s3) s2) s1) t

/-- `_parse_absolute_reminder` (`parser.py` lines 162-202). -/
def parseAbsoluteReminder (text : Str) (nowMs tz : Int) : Option (Int × Str) :=
  let t := stripMentions text
  match dtRegexMatch t with
  | some g =>
    let year := decDigitsToInt g.year
    let month := clampInt (decDigitsToInt g.month) 1 12
    let day := clampInt (decDigitsToInt g.day) 1 31
    let hour := clampInt (decDigitsToInt g.hour) 0 23
    let minute := clampInt (decDigitsToInt g.minute) 0 59
    let msg := stripMentions g.msg
    if msg = [] then none
    else if validDateB year month day then
      let due := daysFromCivil year month day * dayMs + hour * 3600000 + minute * 60000 - tz
      if due ≤ nowMs then none else some (due, msg)
    else none
  | none =>
    match hmRegexMatch t with
    | none => none
    | some (g1, timeStr, msgRaw) =>
      let hintRaw := pyStrip (g1.getD [])
      let hm := parseHm (pyStrip timeStr)
      let msg := stripMentions msgRaw
      match hm with
      | none => none
      | some (h, m) =>
        if msg = [] then none
        else
          let due := computeNextTime (hintToDayHint hintRaw) h m nowMs tz
          if due ≤ nowMs then none else some (due, msg)

/-! ## Parser: the multi-time stage (`parser.py` lines 205-242) and pipeline -/

/-- The multi-time regex (`parser.py` line 207):
`^(?:在\s*)?(今天|明天|后天|今晚)?\s*([\s\S]+?)\s*(?:提醒|叫|通知|发|发送)(?:我|你|ta|他|她)?\s*(.+)$`. -/
def multiRegexMatch (t : Str) : Option (Option Str × Str × Str) :=
  zaiOptK (fun s1 =>
    optCapAlts hintAlts (fun g1 s2 =>
      wsStarK (fun s3 =>
        lazyAnyPlusK (fun mid s4 =>
          wsStarK (fun s5 =>
            tryAlts trigAlts (fun s6 =>
              optAlts ("我".data :: "你".data :: "ta".data :: "他".data :: "她".data :: [])
                (fun s7 =>
                  wsStarK (fun s8 =>
                    (matchMsgEnd s8).map (fun msg => (g1, mid, msg))) s7) s6) s5) s4) s3) s2) s1) t

/-- `re.sub(r"[，、]", ",", ...)` (`parser.py` line 223). -/
def subCnComma (s : Str) : Str := s.map (fun c => if c = '，' ∨ c = '、' then ',' else c)

def isSplitChar (c : Char) : Bool := c = ',' || isSpaceChar c

/-- `[p.strip() for p in re.split(r"[,\s]+", candidates) if p.strip()]`
(`parser.py` line 225): the pieces between `[,\s]` runs contain neither
commas nor whitespace, so stripping them is the identity and dropping empty
pieces leaves exactly the maximal non-separator runs. -/
def splitTokensAux : Nat → Str → List Str
  | 0, _ => []
  | fuel + 1, s =>
    let s1 := s.dropWhile isSplitChar
    match s1 with
    | [] => []
    | _ :: _ =>
      let tok := s1.takeWhile (fun c => !isSplitChar c)
      tok :: splitTokensAux fuel (s1.drop tok.length)

/-- `parser.py` lines 223-225: normalize commas, collapse whitespace, split. -/
def splitTimeTokens (timesRaw : Str) : List Str :=
  let candidates := collapseWs (subCnComma timesRaw)
  splitTokensAux candidates.length candidates

/-- `uniq[due] = (due, msg)` over a Python dict: key order is first
insertion, value is the last write. -/
def dictInsertByFst (m : List (Int × Str)) (p : Int × Str) : List (Int × Str) :=
  if m.any (fun q => q.1 == p.1) then m.map (fun q => if q.1 == p.1 then (q.1, p.2) else q)
  else m ++ [p]

def dictOfList (l : List (Int × Str)) : List (Int × Str) :=
  l.foldl dictInsertByFst []

def dueLePair (a b : Int × Str) : Prop := a.1 ≤ b.1

instance : DecidableRel dueLePair := fun a b => Int.decLe a.1 b.1

instance : IsTotal (Int × Str) dueLePair := ⟨fun a b => Int.le_total a.1 b.1⟩

instance : IsTrans (Int × Str) dueLePair := ⟨fun _ _ _ h1 h2 => le_trans h1 h2⟩

/-- The per-token body of the loop at `parser.py` lines 227-233. -/
def resolveTimeToken (dayHint : Option Str) (nowMs tz : Int) (msg : Str) (c : Str) :
    Option (Int × Str) :=
  match parseTimeToken c with
  | none => none
  | some (h, m) =>
    let due := computeNextTime dayHint h m nowMs tz
    if due ≤ nowMs then none else some (due, msg)

/-- `_parse_multi_absolute_reminder` (`parser.py` lines 205-242). -/
def parseMultiAbsoluteReminder (text : Str) (nowMs tz : Int) : Option (List (Int × Str)) :=
  let t := stripMentions text
  match multiRegexMatch t with
  | none => none
  | some (g1, mid, msgRaw) =>
    let hintRaw := pyStrip (g1.getD [])
    let timesRaw := pyStrip mid
    let msg := stripMentions msgRaw
    if timesRaw = [] ∨ msg = [] then none
    else
      let parts := splitTimeTokens timesRaw
      if parts.length < 2 then none
      else
        let out := parts.filterMap (resolveTimeToken (hintToDayHint hintRaw) nowMs tz msg)
        let lst := (dictOfList out).insertionSort dueLePair
        if 2 ≤ lst.length then some lst else none

/-- The single-result fallback of `parse_reminder_requests`
(`parser.py` lines 248-250). -/
def fallbackStages (text : Str) (nowMs tz : Int) : Option (List (Int × Str)) :=
  match (parseDelayReminder text nowMs) <|> parseAbsoluteReminder text nowMs tz with
  | some one => some (one :: [])
  | none => none

/-- `parse_reminder_requests` (`parser.py` lines 245-250): the multi stage
first (its result, when it exists, is a list of length at least 2 and hence
truthy), then the delay and absolute stages. -/
def parseReminderRequests (text : Str) (nowMs tz : Int) : Option (List (Int × Str)) :=
  match parseMultiAbsoluteReminder text nowMs tz with
  | some multi => some multi
  | none => fallbackStages text nowMs tz

/-! ## Specification-side definitions

`claimDueSpec` restates the claimed behaviour of `claim_due` in the words of
the specification: phase 1 reverts every `sending` record whose `claimedAtMs`
instant lies more than the 2-minute staleness window before `now` (with no
truthiness test on the stored instant), then up to `limit` earliest-due
eligible records are claimed.  The code-side `claimDue` agrees with it on all
states whose `sending` records carry a nonzero `claimedAtMs`. -/

/-- The claim's staleness test: a `sending` record whose `claimedAtMs` is
more than 2 minutes before `now`. -/
def staleSpecB (nowMs : Int) (r : Reminder) : Bool :=
  r.status == "sending".data
  && (match r.claimedAtMs with
      | some c => decide (staleWindowMs < nowMs - c)
      | none => false)

def revertStaleSpec (nowMs : Int) (r : Reminder) : Reminder :=
  if staleSpecB nowMs r then { r with status := "pending".data, claimedAtMs := none }
  else r

def claimDueSpec (rs : List Reminder) (nowMs limit : Int) : List Reminder × List Reminder :=
  let rs1 := rs.map (revertStaleSpec nowMs)
  let chosen := ((rs1.enum.filter (fun p => isDueRec nowMs p.2)).insertionSort dueLeP).take
    (max 0 limit).toNat
  let idxs := chosen.map (fun p => p.1)
  (rs1.enum.map (fun p => if idxs.contains p.1 then claimMark nowMs p.2 else p.2),
   chosen.map (fun p => claimMark nowMs p.2))

/-- The positions claimed by `claim_due`. -/
def chosenIdxs (rs : List Reminder) (nowMs limit : Int) : List Nat :=
  (chosenDueCandidates rs nowMs limit).map (fun p => p.1)

/-! ## Concrete records for counterexamples and witnesses -/

/-- A template record for concrete counterexamples and witnesses. -/
def recBase : Reminder :=
  { id := "aaax".data
    createdAtMs := 0
    status := "pending".data
    attempts := 0
    dueAtMs := 1000
    text := "t".data
    creatorUserId := "u".data
    creatorChatType := "private".data
    creatorGroupId := none
    sourceMessageId := none
    target := none
    mentionUserId := none
    lastError := none
    nextAttemptAtMs := none
    claimedAtMs := none
    sentAtMs := none
    canceledAtMs := none }

/-- Creation options whose `sourceMessageId` carries surrounding whitespace. -/
def optsWs : CreateOpts :=
  { sourceMessageId := some (" x ".data)
    dueAtMs := 1000
    creatorUserId := "u".data
    creatorChatType := "private".data
    creatorGroupId := none
    target := none
    mentionUserId := none
    text := "t".data }

/-- A store with one stale `sending` record, one due `pending` record and one
not-yet-due `pending` record. -/
def exClaimStore : List Reminder :=
  ({ recBase with id := "s1".data, status := "sending".data, claimedAtMs := some 1, dueAtMs := 50 })
  :: ({ recBase with id := "p1".data, dueAtMs := 100 })
  :: ({ recBase with id := "p2".data, dueAtMs := 900000 })
  :: []

/-! ## Helper lemmas -/

theorem dropWhile_dropWhile (p : Char → Bool) (l : Str) :
    (l.dropWhile p).dropWhile p = l.dropWhile p := by
  induction l with
  | nil => rfl
  | cons a l ih =>
    by_cases h : p a
    · simp only [List.dropWhile_cons, h, if_true]
      exact ih
    · simp [List.dropWhile_cons, h]

theorem head?_dropWhile_false (p : Char → Bool) (l : Str) (x : Char)
    (h : (l.dropWhile p).head? = some x) : p x = false := by
  have := List.head?_dropWhile_not p l
  rw [h] at this
  exact this

theorem dropWhile_head_false (p : Char → Bool) (l : Str)
    (h : ∀ x, l.head? = some x → p x = false) : l.dropWhile p = l := by
  cases l with
  | nil => rfl
  | cons a l => simp [List.dropWhile_cons, h a rfl]

theorem pyStrip_idem (s : Str) : pyStrip (pyStrip s) = pyStrip s := by
  by_cases hA : s.dropWhile isSpaceChar = []
  · simp [pyStrip, hA]
  · obtain ⟨a, as2, hAeq⟩ : ∃ a as2, s.dropWhile isSpaceChar = a :: as2 := by
      cases h : s.dropWhile isSpaceChar with
      | nil => exact absurd h hA
      | cons x xs => exact ⟨x, xs, rfl⟩
    have hpa : isSpaceChar a = false :=
      head?_dropWhile_false isSpaceChar s a (by rw [hAeq]; rfl)
    by_cases hBnil : (s.dropWhile isSpaceChar).reverse.dropWhile isSpaceChar = []
    · simp [pyStrip, hBnil]
    · have hsuf : (s.dropWhile isSpaceChar).reverse.dropWhile isSpaceChar
          <:+ (s.dropWhile isSpaceChar).reverse := List.dropWhile_suffix isSpaceChar
      obtain ⟨pre, hpre⟩ := hsuf
      have hlastB : ((s.dropWhile isSpaceChar).reverse.dropWhile isSpaceChar).getLast?
          = some a := by
        have h1 : (pre ++ (s.dropWhile isSpaceChar).reverse.dropWhile isSpaceChar).getLast?
            = ((s.dropWhile isSpaceChar).reverse.dropWhile isSpaceChar).getLast? :=
          List.getLast?_append_of_ne_nil pre hBnil
        rw [hpre] at h1
        rw [← h1, List.getLast?_reverse, hAeq]
        rfl
      have hstep1 : ((s.dropWhile isSpaceChar).reverse.dropWhile isSpaceChar).reverse.dropWhile
          isSpaceChar
          = ((s.dropWhile isSpaceChar).reverse.dropWhile isSpaceChar).reverse := by
        apply dropWhile_head_false
        intro x hx
        rw [List.head?_reverse, hlastB] at hx
        cases hx
        exact hpa
      show ((((s.dropWhile isSpaceChar).reverse.dropWhile isSpaceChar).reverse.dropWhile
          isSpaceChar).reverse.dropWhile isSpaceChar).reverse = _
      rw [hstep1, List.reverse_reverse, dropWhile_dropWhile]
      rfl

theorem findIdx?_go_append {α : Type} (p : α → Bool) (l₁ l₂ : List α) (a : α) (s : Nat)
    (h₁ : ∀ x ∈ l₁, p x = false) (ha : p a = true) :
    (l₁ ++ a :: l₂).findIdx? p s = some (s + l₁.length) := by
  induction l₁ generalizing s with
  | nil => simp [List.findIdx?_cons, ha]
  | cons x xs ih =>
    have hx := h₁ x (by simp)
    simp only [List.cons_append, List.findIdx?_cons, hx, Bool.false_eq_true, if_false]
    rw [ih (s + 1) (fun y hy => h₁ y (by simp [hy]))]
    congr 1
    simp only [List.length_cons]
    omega

theorem findIdx?_append_first {α : Type} (p : α → Bool) (l₁ l₂ : List α) (a : α)
    (h₁ : ∀ x ∈ l₁, p x = false) (ha : p a = true) :
    (l₁ ++ a :: l₂).findIdx? p = some l₁.length := by
  have h := findIdx?_go_append p l₁ l₂ a 0 h₁ ha
  simpa using h

theorem set_append_length {α : Type} (l₁ l₂ : List α) (a b : α) :
    (l₁ ++ a :: l₂).set l₁.length b = l₁ ++ b :: l₂ := by
  induction l₁ with
  | nil => rfl
  | cons x xs ih => simp [List.set_cons_succ, ih]

theorem getElem?_append_length {α : Type} (l₁ l₂ : List α) (a : α) :
    (l₁ ++ a :: l₂)[l₁.length]? = some a := by
  rw [List.getElem?_append_right (le_refl _)]
  simp

theorem revertStale_id (nowMs : Int) (r : Reminder) :
    (revertStale nowMs r).id = r.id := by
  unfold revertStale
  split <;> rfl

theorem mem_chosen_eligible (rs : List Reminder) (nowMs limit : Int) (p : Nat × Reminder)
    (h : p ∈ chosenDueCandidates rs nowMs limit) :
    (rs.map (revertStale nowMs))[p.1]? = some p.2 ∧ isDueRec nowMs p.2 = true := by
  have h1 : p ∈ sortedDueCandidates rs nowMs :=
    List.Sublist.mem h (List.take_sublist _ _)
  have h2 : p ∈ dueCandidates rs nowMs :=
    (List.perm_insertionSort dueLeP _).mem_iff.mp h1
  rw [dueCandidates, List.mem_filter] at h2
  obtain ⟨hmem, hdue⟩ := h2
  obtain ⟨i, x⟩ := p
  obtain ⟨hlt, hx⟩ := List.mem_enum hmem
  refine ⟨?_, hdue⟩
  rw [List.getElem?_eq_getElem hlt, hx]

theorem chosenIdx_eligible (rs : List Reminder) (nowMs limit : Int) (i : Nat)
    (h : (chosenIdxs rs nowMs limit).contains i = true) :
    ∃ r1, (rs.map (revertStale nowMs))[i]? = some r1 ∧ isDueRec nowMs r1 = true := by
  have hm : i ∈ chosenIdxs rs nowMs limit := List.elem_iff.mp h
  rw [chosenIdxs, List.mem_map] at hm
  obtain ⟨p, hp, hpi⟩ := hm
  have := mem_chosen_eligible rs nowMs limit p hp
  exact ⟨p.2, by rw [hpi] at this; exact this⟩

theorem claimDue_fst_getElem? (rs : List Reminder) (nowMs limit : Int) (i : Nat) :
    ((claimDue rs nowMs limit).1)[i]? =
      (rs[i]?).map (fun r =>
        if (chosenIdxs rs nowMs limit).contains i then claimMark nowMs (revertStale nowMs r)
        else revertStale nowMs r) := by
  show ((rs.map (revertStale nowMs)).enum.map
      (fun p => if (chosenIdxs rs nowMs limit).contains p.1 then claimMark nowMs p.2
        else p.2))[i]? = _
  rw [List.getElem?_map, List.getElem?_enum, List.getElem?_map]
  cases rs[i]? <;> simp

theorem claimDue_snd_mem (rs : List Reminder) (nowMs limit : Int) (x : Reminder)
    (h : x ∈ (claimDue rs nowMs limit).2) :
    ∃ p, p ∈ chosenDueCandidates rs nowMs limit ∧ x = claimMark nowMs p.2 := by
  have heq : (claimDue rs nowMs limit).2 = (chosenDueCandidates rs nowMs limit).map
      (fun p => claimMark nowMs p.2) := rfl
  rw [heq, List.mem_map] at h
  obtain ⟨p, hp, hx⟩ := h
  exact ⟨p, hp, hx.symm⟩

/-! ## Claim theorems -/

/-- C10: for every id that matches no record in the collection, `markSent`
and `markFailed` are no-ops: every record is left unchanged and nothing is
persisted (the flush flag stays `false`). -/
theorem mark_unknown_id_noop (rs : List Reminder) (rid err : Str) (t1 t2 : Int)
    (h : ∀ r ∈ rs, r.id ≠ rid) :
    markSent rs rid t1 = (rs, false) ∧ markFailed rs rid err t2 = (rs, false) := by
  have hidx : rs.findIdx? (fun r => r.id == rid) = none := by
    rw [List.findIdx?_eq_none_iff]
    intro x hx
    exact beq_eq_false_iff_ne.mpr (h x hx)
  constructor
  · unfold markSent
    rw [hidx]
  · unfold markFailed
    rw [hidx]

theorem mark_unknown_id_noop_witness :
    markSent (recBase :: []) ("zzz".data) 5 = (recBase :: [], false)
    ∧ markFailed (recBase :: []) ("zzz".data) ("e".data) 6 = (recBase :: [], false) :=
  mark_unknown_id_noop (recBase :: []) ("zzz".data) ("e".data) 5 6 (by decide)

/-- C3 counterexample: `markFailed` moves a `canceled` record to `pending`
and `markSent` moves it to `sent` — both are transitions out of a terminal
state, refuting the claim that no store operation ever changes the status of
a `sent` or `canceled` record. -/
theorem markFailed_revives_canceled :
    ({ recBase with status := "canceled".data } : Reminder).status = "canceled".data
    ∧ ((markFailed (({ recBase with status := "canceled".data }) :: []) ("aaax".data)
        ("boom".data) 5000).1.head?.map Reminder.status) = some ("pending".data)
    ∧ ((markSent (({ recBase with status := "canceled".data }) :: []) ("aaax".data)
        7000).1.head?.map Reminder.status) = some ("sent".data) := by
  decide

/-- C3 amended: `create`, `claimDue` and `cancel` never change a record whose
status is `sent` or `canceled`; `markSent` and `markFailed` look a record up
by id only and do not guard the status (see the counterexample). -/
theorem terminal_status_preserved (rs : List Reminder) (i : Nat) (r : Reminder)
    (hi : rs[i]? = some r) (hterm : r.status = "sent".data ∨ r.status = "canceled".data) :
    (∀ opts freshId nowMs, ((create rs opts freshId nowMs).2)[i]? = some r)
    ∧ (∀ nowMs limit, ((claimDue rs nowMs limit).1)[i]? = some r)
    ∧ (∀ userId key nowMs, ((cancel rs userId key nowMs).2)[i]? = some r) := by
  have hlt : i < rs.length := (List.getElem?_eq_some.mp hi).1
  have hnotSending : r.status ≠ "sending".data := by
    rcases hterm with h | h <;> rw [h] <;> decide
  have hnotPending : r.status ≠ "pending".data := by
    rcases hterm with h | h <;> rw [h] <;> decide
  have hrev : ∀ n, revertStale n r = r := by
    intro n
    unfold revertStale
    rw [if_neg]
    rintro ⟨h1, -, -⟩
    exact hnotSending h1
  have happ : ∀ x : Reminder, (rs ++ (x :: []))[i]? = some r := by
    intro x
    rw [List.getElem?_append_left hlt]
    exact hi
  refine ⟨?_, ?_, ?_⟩
  · intro opts freshId nowMs
    cases hdk : dedupKey opts.sourceMessageId with
    | none =>
      simp only [create, hdk]
      exact happ _
    | some key =>
      cases hf : rs.find? (dedupMatchB opts key) with
      | some r2 =>
        simp only [create, hdk, hf]
        exact hi
      | none =>
        simp only [create, hdk, hf]
        exact happ _
  · intro nowMs limit
    rw [claimDue_fst_getElem?, hi]
    by_cases hc : (chosenIdxs rs nowMs limit).contains i = true
    · exfalso
      obtain ⟨r1, hmap, hdue⟩ := chosenIdx_eligible rs nowMs limit i hc
      rw [List.getElem?_map, hi] at hmap
      simp only [Option.map_some'] at hmap
      have hr1 : r1 = revertStale nowMs r := by
        injection hmap with hmap
        exact hmap.symm
      rw [hr1, hrev nowMs] at hdue
      unfold isDueRec at hdue
      rw [Bool.and_eq_true, Bool.and_eq_true] at hdue
      have hp := hdue.1.1
      rw [beq_iff_eq] at hp
      exact hnotPending hp
    · simp only [hc, Option.map_some']
      simp [hrev nowMs]
  · intro userId rawKey nowMs
    simp only [cancel]
    by_cases hk : pyStrip rawKey = []
    · simp only [hk, if_true]
      exact hi
    · simp only [hk, if_false]
      cases hidx : cancelTargetIdx rs userId (pyStrip rawKey) with
      | none =>
        simp only [hidx]
        exact hi
      | some j =>
        simp only [hidx, cancelAt]
        cases hj : rs[j]? with
        | none =>
          simp only [hj]
          exact hi
        | some q =>
          simp only [hj]
          by_cases hq : q.status = "pending".data ∨ q.status = "sending".data
          · rw [if_pos hq]
            have hji : j ≠ i := by
              intro he
              subst he
              rw [hi] at hj
              injection hj with hj
              rcases hq with h | h
              · rw [← hj] at h
                exact hnotPending h
              · rw [← hj] at h
                exact hnotSending h
            show (rs.set j (cancelRecord nowMs q))[i]? = some r
            rw [List.getElem?_set]
            simp only [hji, if_false]
            exact hi
          · rw [if_neg hq]
            exact hi

theorem terminal_status_preserved_witness :
    ((claimDue (({ recBase with status := "sent".data }) :: []) 5000 10).1)[0]?
      = some ({ recBase with status := "sent".data })
    ∧ ((cancel (({ recBase with status := "sent".data }) :: []) ("u".data)
        ("aaax".data) 5).2)[0]?
      = some ({ recBase with status := "sent".data }) := by
  have h := terminal_status_preserved (({ recBase with status := "sent".data }) :: []) 0
    ({ recBase with status := "sent".data }) (by decide) (Or.inl (by decide))
  exact ⟨h.2.1 5000 10, h.2.2 ("u".data) ("aaax".data) 5⟩

/-- C4 counterexample: the key `aa` is a prefix of the ids of two of the
caller's own records, and no exact match exists; the claim says an ambiguous
prefix cancels nothing, but `cancel` cancels the first matching record. -/
theorem cancel_ambiguous_not_rejected :
    (cancel (recBase :: ({ recBase with id := "aaay".data }) :: []) ("u".data)
        ("aa".data) 99).1 = some (cancelRecord 99 recBase)
    ∧ (cancel (recBase :: ({ recBase with id := "aaay".data }) :: []) ("u".data)
        ("aa".data) 99).2
      = (cancelRecord 99 recBase) :: ({ recBase with id := "aaay".data }) :: [] := by
  decide

/-- C4 amended: an exact id+owner match wins over any prefix match; when no
exact match exists and the key is shorter than a full 36-character id, the
FIRST record in collection order owned by the caller whose id extends the key
is acted on (there is no uniqueness check, see the counterexample); when the
key is not shorter than a full id, or no record of the caller extends it (in
particular when it is a prefix only of other owners' ids), nothing is
canceled. -/
theorem cancel_lookup_rules (rs : List Reminder) (userId rawKey : Str) (nowMs : Int)
    (hkey : pyStrip rawKey ≠ []) :
    (∀ i, rs.findIdx? (cancelExactB userId (pyStrip rawKey)) = some i →
        cancel rs userId rawKey nowMs = cancelAt rs i nowMs)
    ∧ (∀ i, rs.findIdx? (cancelExactB userId (pyStrip rawKey)) = none →
        (pyStrip rawKey).length < 36 →
        rs.findIdx? (cancelPrefixB userId (pyStrip rawKey)) = some i →
        cancel rs userId rawKey nowMs = cancelAt rs i nowMs)
    ∧ (rs.findIdx? (cancelExactB userId (pyStrip rawKey)) = none →
        (36 ≤ (pyStrip rawKey).length
          ∨ rs.findIdx? (cancelPrefixB userId (pyStrip rawKey)) = none) →
        cancel rs userId rawKey nowMs = (none, rs)) := by
  refine ⟨?_, ?_, ?_⟩
  · intro i hex
    simp only [cancel, hkey, if_false, cancelTargetIdx, hex]
  · intro i hex hlen hpre
    simp only [cancel, hkey, if_false, cancelTargetIdx, hex, hlen, if_true, hpre]
  · intro hex hdis
    rcases hdis with hlen | hpre
    · have hnl : ¬ (pyStrip rawKey).length < 36 := by omega
      simp only [cancel, hkey, if_false, cancelTargetIdx, hex, hnl]
    · by_cases hlen : (pyStrip rawKey).length < 36
      · simp only [cancel, hkey, if_false, cancelTargetIdx, hex, hlen, if_true, hpre]
      · simp only [cancel, hkey, if_false, cancelTargetIdx, hex, hlen]

theorem cancel_lookup_rules_witness :
    cancel (recBase :: ({ recBase with id := "bbbz".data, creatorUserId := "v".data }) :: [])
        ("u".data) ("aa".data) 99
      = cancelAt
          (recBase :: ({ recBase with id := "bbbz".data, creatorUserId := "v".data }) :: [])
          0 99 :=
  (cancel_lookup_rules
      (recBase :: ({ recBase with id := "bbbz".data, creatorUserId := "v".data }) :: [])
      ("u".data) ("aa".data) 99 (by decide)).2.1 0 (by decide) (by decide) (by decide)

/-- C1 counterexample: two `create` calls with the identical options, whose
`sourceMessageId` is `" x "` (whitespace-padded), return records with two
different ids and append two records: dedup compares the stored raw
`sourceMessageId` with the stripped incoming one, so they never match. -/
theorem create_whitespace_dedup_fails :
    ((create [] optsWs ("id1".data) 100).1).id = "id1".data
    ∧ ((create (create [] optsWs ("id1".data) 100).2 optsWs ("id2".data) 200).1).id
        = "id2".data
    ∧ ((create (create [] optsWs ("id1".data) 100).2 optsWs ("id2".data) 200).2).length = 2 := by
  decide

/-- C1 amended: when the normalized dedup key exists and some stored record
matches the dedup tuple (with the record's `sourceMessageId` compared against
the *stripped* incoming one), `create` returns the first such record and
appends nothing; consequently creation is idempotent whenever the supplied
`sourceMessageId` is nonempty and equal to its own strip — the form in which
the tool layer always supplies it. -/
theorem create_dedup_idempotent (rs : List Reminder) (opts : CreateOpts) :
    (∀ key r freshId nowMs, dedupKey opts.sourceMessageId = some key →
        rs.find? (dedupMatchB opts key) = some r →
        create rs opts freshId nowMs = (r, rs))
    ∧ (∀ m fid1 t1 fid2 t2, opts.sourceMessageId = some m → m ≠ [] → pyStrip m = m →
        ((create (create rs opts fid1 t1).2 opts fid2 t2).1).id
          = ((create rs opts fid1 t1).1).id
        ∧ (create (create rs opts fid1 t1).2 opts fid2 t2).2 = (create rs opts fid1 t1).2) := by
  constructor
  · intro key r freshId nowMs hk hf
    simp only [create, hk, hf]
  · intro m fid1 t1 fid2 t2 hs hm1 hm2
    have hk : dedupKey opts.sourceMessageId = some m := by
      rw [hs]
      simp only [dedupKey, hm2]
      rw [if_neg hm1, if_neg hm1]
    cases hf : rs.find? (dedupMatchB opts m) with
    | some r =>
      simp [create, hk, hf]
    | none =>
      have hmatch : ∀ fid t, dedupMatchB opts m (newReminder opts fid t) = true := by
        intro fid t
        simp only [dedupMatchB, newReminder, hs]
        simp [pyStrip_idem]
      have hf2 : ∀ fid t, (rs ++ (newReminder opts fid t :: [])).find? (dedupMatchB opts m)
          = some (newReminder opts fid t) := by
        intro fid t
        rw [List.find?_append, hf]
        simp [List.find?_cons, hmatch fid t]
      simp [create, hk, hf, hf2]

theorem create_dedup_idempotent_witness :
    ((create
        (create [] ({ optsWs with sourceMessageId := some ("x".data) }) ("id1".data) 100).2
        ({ optsWs with sourceMessageId := some ("x".data) }) ("id2".data) 200).1).id
      = ((create [] ({ optsWs with sourceMessageId := some ("x".data) }) ("id1".data) 100).1).id :=
  ((create_dedup_idempotent [] ({ optsWs with sourceMessageId := some ("x".data) })).2
    ("x".data) ("id1".data) 100 ("id2".data) 200 rfl (by decide) (by decide)).1

/-- C8: `markFailed` on a `sending` record (the first with its id, ids being
unique) sets it back to `pending`, increments `attempts` by exactly one,
records the error, sets `nextAttemptAtMs = now + 10s`, clears `claimedAtMs`
and persists; afterwards no `claimDue` before `nextAttemptAtMs` returns it,
it is eligible again once `now' ≥ nextAttemptAtMs` (and due), and eligibility
never depends on the `attempts` counter — retries are unbounded. -/
theorem markFailed_retry_behaviour (rs₁ rs₂ : List Reminder) (r : Reminder)
    (rid err : Str) (nowMs : Int)
    (hid : r.id = rid) (h₁ : ∀ x ∈ rs₁, x.id ≠ rid) (h₂ : ∀ x ∈ rs₂, x.id ≠ rid)
    (hstat : r.status = "sending".data) :
    markFailed (rs₁ ++ r :: rs₂) rid err nowMs
      = (rs₁ ++ failedRecord nowMs err r :: rs₂, true)
    ∧ (failedRecord nowMs err r).status = "pending".data
    ∧ (failedRecord nowMs err r).attempts = r.attempts + 1
    ∧ (failedRecord nowMs err r).lastError
        = some (if err = [] then "send_failed".data else err)
    ∧ (failedRecord nowMs err r).nextAttemptAtMs = some (nowMs + 10000)
    ∧ (failedRecord nowMs err r).claimedAtMs = none
    ∧ (∀ now' limit, now' < nowMs + 10000 →
        ∀ x ∈ (claimDue (rs₁ ++ failedRecord nowMs err r :: rs₂) now' limit).2, x.id ≠ rid)
    ∧ (∀ now', nowMs + 10000 ≤ now' → r.dueAtMs ≤ now' →
        isDueRec now' (failedRecord nowMs err r) = true)
    ∧ (∀ now' k (x : Reminder), isDueRec now' { x with attempts := k } = isDueRec now' x) := by
  have hidx : (rs₁ ++ r :: rs₂).findIdx? (fun x => x.id == rid) = some rs₁.length :=
    findIdx?_append_first _ rs₁ rs₂ r
      (fun x hx => beq_eq_false_iff_ne.mpr (h₁ x hx)) (beq_iff_eq.mpr hid)
  have hget : (rs₁ ++ r :: rs₂)[rs₁.length]? = some r := getElem?_append_length rs₁ rs₂ r
  have hset := set_append_length rs₁ rs₂ r (failedRecord nowMs err r)
  refine ⟨?_, rfl, rfl, rfl, rfl, rfl, ?_, ?_, ?_⟩
  · simp only [markFailed, hidx, hget, hset]
  · intro now' limit hlt x hx
    obtain ⟨p, hp, hxeq⟩ := claimDue_snd_mem _ now' limit x hx
    obtain ⟨hmap, hdue⟩ := mem_chosen_eligible _ now' limit p hp
    rw [List.getElem?_map] at hmap
    cases hy : (rs₁ ++ failedRecord nowMs err r :: rs₂)[p.1]? with
    | none =>
      rw [hy] at hmap
      simp at hmap
    | some y =>
      rw [hy] at hmap
      simp only [Option.map_some'] at hmap
      injection hmap with hmap
      have hxid : x.id = y.id := by
        rw [hxeq]
        show (claimMark now' p.2).id = y.id
        have hcm : (claimMark now' p.2).id = p.2.id := rfl
        rw [hcm, ← hmap, revertStale_id]
      obtain ⟨hylt, hyget⟩ := List.getElem?_eq_some.mp hy
      have hymem : y ∈ rs₁ ++ failedRecord nowMs err r :: rs₂ := by
        rw [← hyget]
        exact List.getElem_mem hylt
      rw [List.mem_append] at hymem
      rcases hymem with hin | hin
      · rw [hxid]
        exact h₁ y hin
      · rw [List.mem_cons] at hin
        rcases hin with heq | hin
        · exfalso
          have hfr : revertStale now' y = y := by
            rw [heq]
            unfold revertStale
            rw [if_neg]
            rintro ⟨hc, -, -⟩
            have : (failedRecord nowMs err r).status = "pending".data := rfl
            rw [this] at hc
            exact absurd hc (by decide)
          rw [hfr] at hmap
          rw [← hmap, heq] at hdue
          have hfalse : isDueRec now' (failedRecord nowMs err r) = false := by
            simp only [isDueRec, failedRecord]
            have : ¬ (nowMs + 10000 ≤ now') := by omega
            simp [this]
          rw [hfalse] at hdue
          exact absurd hdue (by decide)
        · rw [hxid]
          exact h₂ y hin
  · intro now' hge hdueAt
    simp only [isDueRec, failedRecord]
    simp [hge, hdueAt]
  · intro now' k x
    rfl

theorem markFailed_retry_behaviour_witness :
    markFailed (({ recBase with status := "sending".data, claimedAtMs := some 10 }) :: [])
        ("aaax".data) ("boom".data) 500
      = (failedRecord 500 ("boom".data)
          ({ recBase with status := "sending".data, claimedAtMs := some 10 }) :: [], true) :=
  (markFailed_retry_behaviour [] []
    ({ recBase with status := "sending".data, claimedAtMs := some 10 })
    ("aaax".data) ("boom".data) 500 rfl (by simp) (by simp) rfl).1

/-- C9 counterexample: a record created in a private chat (creatorChatType
`private`, no creatorGroupId) is returned by a group query with an absent
groupId, because the non-private branch compares only the (empty) group ids
and never consults `creatorChatType`. -/
theorem list_private_record_in_group_query :
    listPendingByCreator (recBase :: []) ("u".data) ("group".data) none = recBase :: []
    ∧ recBase.creatorChatType = "private".data
    ∧ recBase.status = "pending".data := by
  decide

/-- C9 amended: `listPendingByCreator` returns exactly the records with
status `pending` or `sending` owned by `userId` that pass the chat-context
test, sorted by `dueAtMs` ascending — where the context test for a private
query is `creatorChatType = "private"`, and for any other query compares
only `creatorGroupId` (empty when absent) with the supplied `groupId` (empty
when absent); `creatorChatType` is not consulted in that branch, so a
private-chat record with no group id is also returned by a group query with
an empty or absent groupId. -/
theorem listPendingByCreator_spec (rs : List Reminder) (userId chatType : Str)
    (groupId : Option Str) :
    (listPendingByCreator rs userId chatType groupId).Perm
      (rs.filter (listedB userId chatType groupId))
    ∧ List.Sorted dueLeR (listPendingByCreator rs userId chatType groupId)
    ∧ (∀ r, r ∈ listPendingByCreator rs userId chatType groupId ↔
        r ∈ rs ∧ (r.status = "pending".data ∨ r.status = "sending".data)
          ∧ r.creatorUserId = userId
          ∧ (if chatType = "private".data then r.creatorChatType = "private".data
             else r.creatorGroupId.getD [] = groupId.getD [])) := by
  refine ⟨List.perm_insertionSort dueLeR _, List.sorted_insertionSort dueLeR _, ?_⟩
  intro r
  show r ∈ (rs.filter (listedB userId chatType groupId)).insertionSort dueLeR ↔ _
  rw [(List.perm_insertionSort dueLeR _).mem_iff, List.mem_filter]
  constructor
  · rintro ⟨hmem, hb⟩
    refine ⟨hmem, ?_⟩
    unfold listedB pendingOrSendingB at hb
    rw [Bool.and_eq_true, Bool.and_eq_true] at hb
    obtain ⟨⟨hps, huid⟩, hctx⟩ := hb
    refine ⟨?_, beq_iff_eq.mp huid, ?_⟩
    · rw [Bool.or_eq_true, beq_iff_eq, beq_iff_eq] at hps
      exact hps
    · by_cases hct : chatType = "private".data
      · rw [if_pos hct]
        rw [if_pos hct] at hctx
        exact beq_iff_eq.mp hctx
      · rw [if_neg hct]
        rw [if_neg hct] at hctx
        exact beq_iff_eq.mp hctx
  · rintro ⟨hmem, hps, huid, hctx⟩
    refine ⟨hmem, ?_⟩
    unfold listedB pendingOrSendingB
    rw [Bool.and_eq_true, Bool.and_eq_true]
    refine ⟨⟨?_, beq_iff_eq.mpr huid⟩, ?_⟩
    · rw [Bool.or_eq_true, beq_iff_eq, beq_iff_eq]
      exact hps
    · by_cases hct : chatType = "private".data
      · rw [if_pos hct]
        rw [if_pos hct] at hctx
        exact beq_iff_eq.mpr hctx
      · rw [if_neg hct]
        rw [if_neg hct] at hctx
        exact beq_iff_eq.mpr hctx

/-- C2: `claimDue` implements the claimed two-phase algorithm.  On any state
whose `sending` records carry a nonzero `claimedAtMs` (the store itself only
ever writes the positive claim instant), the code equals `claimDueSpec` — the
claim's wording: revert every `sending` record claimed more than 2 minutes
before `now`, then claim up to `limit` eligible records.  Moreover the
returned list is sorted by `dueAtMs` ascending, has at most `limit` entries,
all returned records are `sending` with `claimedAtMs = now`, every returned
record's `dueAtMs` is at most that of any eligible-but-unselected candidate,
and the new state is exactly the per-slot revert-then-claim update. -/
theorem claimDue_behaviour (rs : List Reminder) (nowMs limit : Int)
    (hwf : ∀ r ∈ rs, r.status = "sending".data → r.claimedAtMs ≠ some 0) :
    claimDue rs nowMs limit = claimDueSpec rs nowMs limit
    ∧ List.Sorted dueLeR (claimDue rs nowMs limit).2
    ∧ (claimDue rs nowMs limit).2.length ≤ (max 0 limit).toNat
    ∧ (∀ x ∈ (claimDue rs nowMs limit).2,
        x.status = "sending".data ∧ x.claimedAtMs = some nowMs)
    ∧ (∀ x ∈ (claimDue rs nowMs limit).2,
        ∀ q ∈ (sortedDueCandidates rs nowMs).drop (max 0 limit).toNat,
          x.dueAtMs ≤ q.2.dueAtMs)
    ∧ (∀ i : Nat, ((claimDue rs nowMs limit).1)[i]? =
        (rs[i]?).map (fun r =>
          if (chosenIdxs rs nowMs limit).contains i then
            claimMark nowMs (revertStale nowMs r)
          else revertStale nowMs r)) := by
  have hmap : rs.map (revertStale nowMs) = rs.map (revertStaleSpec nowMs) := by
    apply List.map_congr_left
    intro r hr
    unfold revertStale revertStaleSpec staleSpecB
    by_cases hsend : r.status = "sending".data
    · cases hcl : r.claimedAtMs with
      | none => simp [hsend, hcl]
      | some c =>
        have hc0 : c ≠ 0 := by
          intro h0
          exact hwf r hr hsend (by rw [hcl, h0])
        by_cases hst : staleWindowMs < nowMs - c
        · rw [if_pos ⟨hsend, by simp [hcl, hc0], by simp [hcl, hst]⟩,
            if_pos (by simp [hsend, hcl, hst])]
        · rw [if_neg (by rintro ⟨-, -, h⟩; exact hst (by simpa using h)),
            if_neg (by simp [hsend, hcl, hst])]
    · rw [if_neg (by rintro ⟨h, -, -⟩; exact hsend h),
        if_neg (by simp [hsend])]
  have hsorted : List.Sorted dueLeP (sortedDueCandidates rs nowMs) :=
    List.sorted_insertionSort dueLeP _
  have hchosen : List.Pairwise dueLeP (chosenDueCandidates rs nowMs limit) :=
    List.Pairwise.sublist (List.take_sublist _ _) hsorted
  have hout : (claimDue rs nowMs limit).2
      = (chosenDueCandidates rs nowMs limit).map (fun p => claimMark nowMs p.2) := rfl
  refine ⟨?_, ?_, ?_, ?_, ?_, ?_⟩
  · unfold claimDue claimDueSpec chosenDueCandidates sortedDueCandidates dueCandidates
    rw [hmap]
  · rw [hout, List.Sorted, List.pairwise_map]
    exact hchosen.imp (fun h => h)
  · rw [hout, List.length_map]
    unfold chosenDueCandidates
    rw [List.length_take]
    exact min_le_left _ _
  · intro x hx
    obtain ⟨p, hp, hxeq⟩ := claimDue_snd_mem rs nowMs limit x hx
    rw [hxeq]
    exact ⟨rfl, rfl⟩
  · intro x hx q hq
    obtain ⟨p, hp, hxeq⟩ := claimDue_snd_mem rs nowMs limit x hx
    have hpair : ∀ a ∈ (sortedDueCandidates rs nowMs).take (max 0 limit).toNat,
        ∀ b ∈ (sortedDueCandidates rs nowMs).drop (max 0 limit).toNat, dueLeP a b := by
      have h := hsorted
      rw [List.Sorted] at h
      rw [← List.take_append_drop (max 0 limit).toNat (sortedDueCandidates rs nowMs)] at h
      exact (List.pairwise_append.mp h).2.2
    have hle := hpair p hp q hq
    rw [hxeq]
    exact hle
  · exact claimDue_fst_getElem? rs nowMs limit

theorem claimDue_behaviour_witness :
    claimDue exClaimStore 200000 10 = claimDueSpec exClaimStore 200000 10 :=
  (claimDue_behaviour exClaimStore 200000 10 (by decide)).1

theorem parseHm_nonneg (s : Str) (h m : Int) (hp : parseHm s = some (h, m)) :
    0 ≤ h ∧ 0 ≤ m := by
  unfold parseHm at hp
  cases hg : parseHmGroups (pyStrip s) with
  | none =>
    rw [hg] at hp
    exact absurd hp (by simp)
  | some p =>
    rw [hg] at hp
    simp only [Option.some_inj, Prod.mk.injEq] at hp
    obtain ⟨hh, hm⟩ := hp
    constructor
    · rw [← hh]
      exact le_max_left 0 _
    · rw [← hm]
      exact le_max_left 0 _

theorem computeNextTime_with_hint (hintRaw : Str) (h m nowMs tz : Int) (hne : hintRaw ≠ []) :
    computeNextTime (hintToDayHint hintRaw) h m nowMs tz
      = localDayStart tz nowMs + h * 3600000 + m * 60000
        + (if hintRaw = "明天".data then dayMs
           else if hintRaw = "后天".data then 2 * dayMs else 0) := by
  have hne1 : ("tomorrow".data : Str) ≠ "day_after_tomorrow".data := by decide
  have hne2 : ("today".data : Str) ≠ "tomorrow".data := by decide
  have hne3 : ("today".data : Str) ≠ "day_after_tomorrow".data := by decide
  unfold hintToDayHint computeNextTime
  by_cases h1 : hintRaw = "明天".data
  · simp only [h1, if_true, if_pos rfl]
    have : ("明天".data : Str) ≠ "后天".data := by decide
    simp [this]
  · by_cases h2 : hintRaw = "后天".data
    · simp [h1, h2, hne1]
    · simp [h1, h2, hne, hne2, hne3]

/-- C5: in the clock-time branch of the absolute stage, when no day-hint word
is present and the same-day instant is not in the future, the due instant is
exactly one day later (and the parse succeeds); when any hint word is present
(`今天`, `明天`, `后天`, or any other qualifier treated as today), the hint
shift is applied with no rollover, and an instant that is not in the future
makes the parse return no match. -/
theorem absolute_clock_rollover (t : Str) (nowMs tz : Int) (g1 : Option Str)
    (timeStr msgRaw : Str) (h m : Int)
    (hdt : dtRegexMatch (stripMentions t) = none)
    (hhm : hmRegexMatch (stripMentions t) = some (g1, timeStr, msgRaw))
    (hpm : parseHm (pyStrip timeStr) = some (h, m))
    (hmsg : stripMentions msgRaw ≠ []) :
    (pyStrip (g1.getD []) = [] →
      localDayStart tz nowMs + h * 3600000 + m * 60000 ≤ nowMs →
      parseAbsoluteReminder t nowMs tz
        = some (localDayStart tz nowMs + h * 3600000 + m * 60000 + dayMs,
            stripMentions msgRaw))
    ∧ (pyStrip (g1.getD []) ≠ [] →
        parseAbsoluteReminder t nowMs tz
          = (if localDayStart tz nowMs + h * 3600000 + m * 60000
                + (if pyStrip (g1.getD []) = "明天".data then dayMs
                   else if pyStrip (g1.getD []) = "后天".data then 2 * dayMs else 0) ≤ nowMs
             then none
             else some (localDayStart tz nowMs + h * 3600000 + m * 60000
                + (if pyStrip (g1.getD []) = "明天".data then dayMs
                   else if pyStrip (g1.getD []) = "后天".data then 2 * dayMs else 0),
                stripMentions msgRaw))) := by
  have hbase : parseAbsoluteReminder t nowMs tz
      = (let due := computeNextTime (hintToDayHint (pyStrip (g1.getD []))) h m nowMs tz
         if due ≤ nowMs then none else some (due, stripMentions msgRaw)) := by
    simp only [parseAbsoluteReminder, hdt, hhm, hpm, hmsg, if_neg]
    simp
  obtain ⟨hh0, hm0⟩ := parseHm_nonneg (pyStrip timeStr) h m hpm
  have hmod1 : 0 ≤ (nowMs + tz) % dayMs := Int.emod_nonneg _ (by unfold dayMs; decide)
  have hmod2 : (nowMs + tz) % dayMs < dayMs := Int.emod_lt_of_pos _ (by unfold dayMs; decide)
  constructor
  · intro hhint hpast
    have hdh : hintToDayHint ([] : Str) = none := by decide
    have hcnt : computeNextTime none h m nowMs tz
        = localDayStart tz nowMs + h * 3600000 + m * 60000 + dayMs := by
      unfold computeNextTime
      simp only [reduceCtorEq, if_false, true_and]
      rw [if_pos hpast]
    rw [hbase, hhint, hdh, hcnt]
    rw [if_neg ?hfut]
    case hfut =>
      unfold localDayStart
      unfold dayMs at *
      omega
  · intro hhint
    rw [hbase, computeNextTime_with_hint _ h m nowMs tz hhint]

theorem absolute_clock_rollover_witness :
    parseAbsoluteReminder ("今天23:00提醒我 睡觉".data) 143400000 28800000 = none := by
  have h := absolute_clock_rollover ("今天23:00提醒我 睡觉".data) 143400000 28800000
    (some ("今天".data)) ("23:00".data) ("睡觉".data) 23 0
    (by decide) (by decide) (by decide) (by decide)
  have h2 := h.2 (by decide)
  rw [h2]
  decide

theorem mem_dictInsertByFst (m : List (Int × Str)) (p x : Int × Str)
    (h : x ∈ dictInsertByFst m p) : x ∈ m ∨ x = p := by
  unfold dictInsertByFst at h
  by_cases hany : (m.any (fun q => q.1 == p.1)) = true
  · rw [if_pos hany] at h
    rw [List.mem_map] at h
    obtain ⟨q, hq, hx⟩ := h
    by_cases he : (q.1 == p.1) = true
    · rw [if_pos he] at hx
      right
      rw [← hx, beq_iff_eq.mp he]
    · rw [if_neg he] at hx
      left
      rw [← hx]
      exact hq
  · rw [if_neg hany] at h
    rw [List.mem_append] at h
    rcases h with h | h
    · exact Or.inl h
    · right
      simpa using h

theorem mem_dictOfList_aux (l : List (Int × Str)) (acc : List (Int × Str)) (x : Int × Str)
    (h : x ∈ l.foldl dictInsertByFst acc) : x ∈ acc ∨ x ∈ l := by
  induction l generalizing acc with
  | nil => exact Or.inl h
  | cons a l ih =>
    rcases ih (dictInsertByFst acc a) h with h1 | h1
    · rcases mem_dictInsertByFst acc a x h1 with h2 | h2
      · exact Or.inl h2
      · exact Or.inr (by rw [h2]; exact List.mem_cons_self a l)
    · exact Or.inr (List.mem_cons_of_mem a h1)

theorem mem_dictOfList (l : List (Int × Str)) (x : Int × Str) (h : x ∈ dictOfList l) :
    x ∈ l := by
  rcases mem_dictOfList_aux l [] x h with h1 | h1
  · exact absurd h1 (by simp)
  · exact h1

theorem dictInsert_fst_map (m : List (Int × Str)) (p : Int × Str) :
    (dictInsertByFst m p).map Prod.fst
      = if m.any (fun q => q.1 == p.1) then m.map Prod.fst
        else m.map Prod.fst ++ (p.1 :: []) := by
  unfold dictInsertByFst
  by_cases hany : (m.any (fun q => q.1 == p.1)) = true
  · rw [if_pos hany, if_pos hany, List.map_map]
    apply List.map_congr_left
    intro q hq
    by_cases he : (q.1 == p.1) = true
    · simp [he, beq_iff_eq.mp he]
    · have he2 : ¬ q.1 = p.1 := fun hh => he (beq_iff_eq.mpr hh)
      simp [he, he2]
  · rw [if_neg hany, if_neg hany]
    simp

theorem dictOfList_fst_nodup_aux (l : List (Int × Str)) (acc : List (Int × Str))
    (hacc : (acc.map Prod.fst).Nodup) :
    ((l.foldl dictInsertByFst acc).map Prod.fst).Nodup := by
  induction l generalizing acc with
  | nil => exact hacc
  | cons a l ih =>
    apply ih
    rw [dictInsert_fst_map]
    by_cases hany : (acc.any (fun q => q.1 == a.1)) = true
    · rw [if_pos hany]
      exact hacc
    · rw [if_neg hany]
      rw [List.nodup_append]
      refine ⟨hacc, by simp, ?_⟩
      intro y hy hy2
      have hy1 : y = a.1 := by simpa using hy2
      rw [List.mem_map] at hy
      obtain ⟨q, hqm, hqy⟩ := hy
      apply hany
      rw [List.any_eq_true]
      exact ⟨q, hqm, beq_iff_eq.mpr (by rw [hqy, hy1])⟩

theorem dictOfList_fst_nodup (l : List (Int × Str)) :
    ((dictOfList l).map Prod.fst).Nodup :=
  dictOfList_fst_nodup_aux l [] (by simp)

/-- C6: the multi-time fan-out stage matches only when, after resolving each
clock-time token against the day hint, dropping non-future instants and
collapsing duplicate instants, at least two remain; the result is exactly
those instants paired with the shared message, sorted strictly ascending by
due instant, all in the future; with fewer than two the stage yields no
match and `parse_reminder_requests` falls through to the later stages. -/
theorem multi_stage_characterization (t : Str) (nowMs tz : Int) (g1 : Option Str)
    (mid msgRaw : Str)
    (hre : multiRegexMatch (stripMentions t) = some (g1, mid, msgRaw)) :
    (∀ out, parseMultiAbsoluteReminder t nowMs tz = some out →
        2 ≤ out.length
        ∧ out.Perm (dictOfList ((splitTimeTokens (pyStrip mid)).filterMap
            (resolveTimeToken (hintToDayHint (pyStrip (g1.getD []))) nowMs tz
              (stripMentions msgRaw))))
        ∧ List.Pairwise (fun a b : Int × Str => a.1 < b.1) out
        ∧ (∀ p ∈ out, p.2 = stripMentions msgRaw ∧ nowMs < p.1))
    ∧ ((dictOfList ((splitTimeTokens (pyStrip mid)).filterMap
          (resolveTimeToken (hintToDayHint (pyStrip (g1.getD []))) nowMs tz
            (stripMentions msgRaw)))).length < 2 →
        parseMultiAbsoluteReminder t nowMs tz = none
        ∧ parseReminderRequests t nowMs tz = fallbackStages t nowMs tz) := by
  set msg := stripMentions msgRaw with hmsgdef
  set collapsed := dictOfList ((splitTimeTokens (pyStrip mid)).filterMap
      (resolveTimeToken (hintToDayHint (pyStrip (g1.getD []))) nowMs tz msg)) with hcol
  have hred : parseMultiAbsoluteReminder t nowMs tz
      = (if pyStrip mid = [] ∨ msg = [] then none
         else if (splitTimeTokens (pyStrip mid)).length < 2 then none
         else if 2 ≤ (collapsed.insertionSort dueLePair).length
           then some (collapsed.insertionSort dueLePair) else none) := by
    simp only [parseMultiAbsoluteReminder, hre, hcol, hmsgdef]
  have hsorted : List.Sorted dueLePair (collapsed.insertionSort dueLePair) :=
    List.sorted_insertionSort _ _
  have hnd : ((collapsed.insertionSort dueLePair).map Prod.fst).Nodup := by
    have hperm := (List.perm_insertionSort dueLePair collapsed).map Prod.fst
    rw [hperm.nodup_iff]
    exact dictOfList_fst_nodup _
  have hne : List.Pairwise (fun a b : Int × Str => a.1 ≠ b.1)
      (collapsed.insertionSort dueLePair) := List.pairwise_map.mp hnd
  constructor
  · intro out hout
    rw [hred] at hout
    by_cases hg1 : pyStrip mid = [] ∨ msg = []
    · rw [if_pos hg1] at hout
      exact absurd hout (by simp)
    · rw [if_neg hg1] at hout
      by_cases hg2 : (splitTimeTokens (pyStrip mid)).length < 2
      · rw [if_pos hg2] at hout
        exact absurd hout (by simp)
      · rw [if_neg hg2] at hout
        by_cases hg3 : 2 ≤ (collapsed.insertionSort dueLePair).length
        · rw [if_pos hg3] at hout
          injection hout with hout
          refine ⟨by rw [← hout]; exact hg3, ?_, ?_, ?_⟩
          · rw [← hout]
            exact List.perm_insertionSort dueLePair collapsed
          · rw [← hout]
            exact ((hsorted.and hne).imp (fun h => lt_of_le_of_ne h.1 h.2))
          · intro p hp
            rw [← hout] at hp
            have hp2 : p ∈ collapsed :=
              (List.perm_insertionSort dueLePair collapsed).mem_iff.mp hp
            have hp3 := mem_dictOfList _ p hp2
            rw [List.mem_filterMap] at hp3
            obtain ⟨tok, htok, hres⟩ := hp3
            unfold resolveTimeToken at hres
            cases hpt : parseTimeToken tok with
            | none =>
              simp only [hpt, reduceCtorEq] at hres
            | some hm =>
              obtain ⟨hh, mm⟩ := hm
              simp only [hpt] at hres
              by_cases hdl : computeNextTime (hintToDayHint (pyStrip (g1.getD []))) hh mm
                  nowMs tz ≤ nowMs
              · rw [if_pos hdl] at hres
                exact absurd hres (by simp)
              · rw [if_neg hdl] at hres
                injection hres with hres
                rw [← hres]
                exact ⟨rfl, by omega⟩
        · rw [if_neg hg3] at hout
          exact absurd hout (by simp)
  · intro hlen
    have hlst : ¬ 2 ≤ (collapsed.insertionSort dueLePair).length := by
      rw [(List.perm_insertionSort dueLePair collapsed).length_eq]
      omega
    have hnone : parseMultiAbsoluteReminder t nowMs tz = none := by
      rw [hred]
      by_cases hg1 : pyStrip mid = [] ∨ msg = []
      · rw [if_pos hg1]
      · rw [if_neg hg1]
        by_cases hg2 : (splitTimeTokens (pyStrip mid)).length < 2
        · rw [if_pos hg2]
        · rw [if_neg hg2, if_neg hlst]
    refine ⟨hnone, ?_⟩
    simp only [parseReminderRequests, hnone]

theorem multi_stage_characterization_witness :
    2 ≤ (((86400000, "吃药".data) :: (90000000, "吃药".data) :: []) : List (Int × Str)).length
    ∧ (((86400000, "吃药".data) :: (90000000, "吃药".data) :: []) : List (Int × Str)).Perm
        (dictOfList ((splitTimeTokens (pyStrip ("8点,9点".data))).filterMap
          (resolveTimeToken (hintToDayHint (pyStrip ((none : Option Str).getD []))) 82800000
            28800000 (stripMentions ("吃药".data)))))
    ∧ List.Pairwise (fun a b : Int × Str => a.1 < b.1)
        (((86400000, "吃药".data) :: (90000000, "吃药".data) :: []) : List (Int × Str))
    ∧ (∀ p ∈ (((86400000, "吃药".data) :: (90000000, "吃药".data) :: []) : List (Int × Str)),
        p.2 = stripMentions ("吃药".data) ∧ (82800000 : Int) < p.1) :=
  (multi_stage_characterization ("在8点,9点提醒我 吃药".data) 82800000 28800000 none
    ("8点,9点".data) ("吃药".data) (by decide)).1
    ((86400000, "吃药".data) :: (90000000, "吃药".data) :: []) (by decide)

/-- C7 (code evaluated at the failing input): the fixed duration rewrites and
the `N小时半` rule behave as the claim says, and
`parse("半小时后提醒我 开会", T)` does yield `T+1800000`; but the
`N个半小时` rule is dead code — the 半小时 substitution runs first and turns
`3个半小时` into `3个30分钟`, after which no stage matches, so the full
parse of `3个半小时后提醒我 开会` returns nothing instead of the claimed
`T + 210*60000`. -/
theorem duration_rewrite_evaluation :
    rewriteDurationPhrases ("半小时".data) = "30分钟".data
    ∧ rewriteDurationPhrases ("半个小时".data) = "30分钟".data
    ∧ rewriteDurationPhrases ("半钟头".data) = "30分钟".data
    ∧ rewriteDurationPhrases ("一刻钟".data) = "15分钟".data
    ∧ rewriteDurationPhrases ("两刻钟".data) = "30分钟".data
    ∧ rewriteDurationPhrases ("三刻钟".data) = "45分钟".data
    ∧ rewriteDurationPhrases ("2小时半".data) = "150分钟".data
    ∧ parseReminderRequests ("半小时后提醒我 开会".data) 82800000 28800000
        = some ((82800000 + 1800000, "开会".data) :: [])
    ∧ rewriteDurationPhrases ("3个半小时".data) = "3个30分钟".data
    ∧ parseReminderRequests ("3个半小时后提醒我 开会".data) 82800000 28800000 = none := by
  refine ⟨?_, ?_, ?_, ?_, ?_, ?_, ?_, ?_, ?_, ?_⟩ <;> decide
